import Mathlib

/-!
Verification development for the Celestia rendering-core slice: the glyph
atlas / TrueType text engine (`src/celttf/truetypefont.cpp`), the overlay
text sink with its streaming UTF-8 decoder (`src/celengine/overlay.cpp`),
and the view-frustum sphere classifier (`src/celmath/frustum.h`; the
implementation file is not part of the slice, so it is modelled from the
specification).

Machine integers are embedded as `Nat`/`Int` (values stay far below any
overflow boundary except where noted: the `unsigned short` cast in the
index generation of `flush` is modelled explicitly with `% 65536`), and
`float` coordinates are embedded as exact rationals.  External
collaborators (FreeType, OpenGL) are parameters: the font face is a pure
function from code point to optional glyph metrics, and GL calls are
recorded as an event trace.
-/

namespace Celestia

/-- Metrics FreeType reports for one rasterized code point
(`FT_GlyphSlot`: advance, bitmap size, bearing). -/
structure GlyphMetrics where
  ax : Int
  ay : Int
  bw : Nat
  bh : Nat
  bl : Int
  bt : Int
  deriving DecidableEq, Repr

/-- A font face, i.e. the external FreeType rasterizer: `FT_Load_Char`
either fails for a code point or returns its metrics.  Pure, mirroring a
fixed loaded font. -/
def Face : Type := Nat → Option GlyphMetrics

/-- One entry of the glyph table (struct `Glyph` in truetypefont.cpp). -/
structure Glyph where
  ch : Nat
  ax : Int
  ay : Int
  bw : Nat
  bh : Nat
  bl : Int
  bt : Int
  tx : Rat
  ty : Rat
  deriving DecidableEq, Repr

/-- The global `g_badGlyph = {0}`: the bad-glyph sentinel, all fields
zero. -/
def badGlyph : Glyph :=
  { ch := 0, ax := 0, ay := 0, bw := 0, bh := 0, bl := 0, bt := 0, tx := 0, ty := 0 }

/-- The advance/bitmap metrics of a stored glyph (everything except the
code point and the atlas texture coordinates). -/
def metricsOf (g : Glyph) : GlyphMetrics :=
  { ax := g.ax, ay := g.ay, bw := g.bw, bh := g.bh, bl := g.bl, bt := g.bt }

/-- Build a glyph table entry from freshly loaded metrics; the texture
coordinates are whatever the uninitialized local `Glyph c` held (the
`junk` parameter), exactly as `loadGlyphInfo` leaves `tx`/`ty` untouched. -/
def glyphOfMetrics (ch : Nat) (m : GlyphMetrics) (junk : Glyph) : Glyph :=
  { ch := ch, ax := m.ax, ay := m.ay, bw := m.bw, bh := m.bh, bl := m.bl, bt := m.bt,
    tx := junk.tx, ty := junk.ty }

/-- The glyph-cache part of `TextureFontPrivate`: the state read and
written by glyph lookup and atlas construction. -/
structure GlyphCache where
  glyphs : List Glyph
  texName : Nat
  texWidth : Nat
  texHeight : Nat
  maxTextureSize : Nat
  commonGlyphsCount : Nat
  inserted : Int
  deriving DecidableEq, Repr

/-- The two eagerly loaded Unicode blocks (`m_unicodeBlocks`): Basic Latin
and lower-case Greek, as inclusive code-point ranges. -/
def unicodeBlocks : List (Nat × Nat) := [(0x0020, 0x007E), (0x03B1, 0x03CF)]

/-- Loop body of `TextureFontPrivate::toPos`. -/
def toPosGo (ch : Nat) (pos : Nat) : List (Nat × Nat) → Int
  | [] => -1
  | r :: rest =>
    if ch < r.1 then -1
    else if ch ≤ r.2 then (pos + ch - r.1 : Nat)
    else toPosGo ch (pos + (r.2 - r.1 + 1)) rest

/-- `TextureFontPrivate::toPos`: index of a code point inside the
pre-loaded common-block region, `-1` if it lies outside every block. -/
def toPos (ch : Nat) : Int :=
  if ch > 0x03CF then -1 else toPosGo ch 0 unicodeBlocks

/-- `TextureFontPrivate::getCommonGlyphsCount`: memoized total size of the
common blocks. -/
def getCommonGlyphsCount (c : GlyphCache) : Nat × GlyphCache :=
  if c.commonGlyphsCount = 0 then
    let n := unicodeBlocks.foldl (fun acc r => acc + (r.2 - r.1 + 1)) 0
    (n, { c with commonGlyphsCount := n })
  else
    (c.commonGlyphsCount, c)

/-- `TextureFontPrivate::loadGlyphInfo`: rasterize one code point.  On
failure the local record keeps its indeterminate contents except `ch := 0`
and the function reports failure (`none` here). -/
def loadGlyphInfo (face : Face) (junk : Glyph) (ch : Nat) : Option Glyph :=
  match face ch with
  | none => none
  | some m => some (glyphOfMetrics ch m junk)

/-- The glyph list `initCommonGlyphs` builds: every code point of every
block in order; a failed load still pushes a record (`ch = 0`, the rest
indeterminate). -/
def commonGlyphList (face : Face) (junk : Glyph) : List Glyph :=
  unicodeBlocks.flatMap fun r =>
    (List.range (r.2 - r.1 + 1)).map fun k =>
      match loadGlyphInfo face junk (r.1 + k) with
      | some c => c
      | none => { junk with ch := 0 }

/-- `TextureFontPrivate::initCommonGlyphs`: a no-op once the table is
non-empty. -/
def initCommonGlyphs (face : Face) (junk : Glyph) (c : GlyphCache) : GlyphCache :=
  if c.glyphs.length > 0 then c
  else { c with glyphs := commonGlyphList face junk }

/-- One step of the width/height scan in
`TextureFontPrivate::computeTextureSize`; the accumulator is
`(roww, rowh, w, h)`. -/
def ctsStep (maxTex : Nat) (acc : Nat × Nat × Nat × Nat) (c : Glyph) :
    Nat × Nat × Nat × Nat :=
  if c.ch = 0 then acc
  else
    let a :=
      if acc.1 + c.bw + 1 ≥ maxTex then (0, 0, max acc.2.2.1 acc.1, acc.2.2.2 + acc.2.1)
      else acc
    (a.1 + c.bw + 1, max a.2.1 c.bh, a.2.2.1, a.2.2.2)

/-- `TextureFontPrivate::computeTextureSize`: shelf-scan all good glyphs
and store the resulting texture dimensions. -/
def computeTextureSize (c : GlyphCache) : GlyphCache :=
  let r := c.glyphs.foldl (ctsStep c.maxTextureSize) (0, 0, 0, 0)
  { c with texWidth := max r.2.2.1 r.1, texHeight := r.2.2.2 + r.2.1 }

/-- One step of the placement loop in `TextureFontPrivate::buildAtlas`;
the accumulator is `(ox, oy, rowh)`.  Returns the updated accumulator, the
updated glyph record, and the placement `(ox, oy, bw)` if the glyph was
pasted into the texture. -/
def atlasStep (face : Face) (texW texH : Nat) (acc : Nat × Nat × Nat) (c : Glyph) :
    (Nat × Nat × Nat) × Glyph × Option (Nat × Nat × Nat) :=
  if c.ch = 0 then (acc, c, none)
  else
    match face c.ch with
    | none => (acc, { c with ch := 0 }, none)
    | some m =>
      let a := if acc.1 + m.bw > texW then (0, acc.2.1 + acc.2.2, 0) else acc
      ((a.1 + m.bw + 1, a.2.1, max a.2.2 m.bh),
       { c with tx := (a.1 : Rat) / (texW : Rat), ty := (a.2.1 : Rat) / (texH : Rat) },
       some (a.1, a.2.1, m.bw))

/-- The glyph-placement loop of `buildAtlas`, threading the packing
accumulator over the whole table. -/
def atlasLoop (face : Face) (texW texH : Nat) (acc : Nat × Nat × Nat) :
    List Glyph → List Glyph × List (Nat × Nat × Nat) × (Nat × Nat × Nat)
  | [] => ([], [], acc)
  | g :: rest =>
    let s := atlasStep face texW texH acc g
    let r := atlasLoop face texW texH s.1 rest
    (s.2.1 :: r.1, s.2.2.toList ++ r.2.1, r.2.2)

/-- `TextureFontPrivate::buildAtlas`: ensure the common glyphs exist,
compute the texture size, allocate a fresh texture object (`newTex` is the
name `glGenTextures` hands back, zero meaning failure) and paste every
good glyph.  Returns success, the new cache, and the placement trace. -/
def buildAtlas (face : Face) (junk : Glyph) (newTex : Nat) (c : GlyphCache) :
    Bool × GlyphCache × List (Nat × Nat × Nat) :=
  let c := initCommonGlyphs face junk c
  let c := computeTextureSize c
  let c := { c with texName := newTex }
  if newTex = 0 then (false, c, [])
  else
    let r := atlasLoop face c.texWidth c.texHeight (0, 0, 0) c.glyphs
    (true, { c with glyphs := r.1 }, r.2.1)

/-- `TextureFontPrivate::getGlyph(wchar_t)`: common-block index, then a
linear search of the dynamic region, then on-demand load + insert +
full atlas rebuild; the bad-glyph sentinel when the load fails.
Out-of-range vector reads (undefined behaviour in C++) return the
indeterminate `junk`. -/
def getGlyph1 (face : Face) (junk : Glyph) (newTex : Nat) (c : GlyphCache)
    (ch : Nat) : Glyph × GlyphCache :=
  let pos := toPos ch
  if pos ≠ -1 then (c.glyphs.getD pos.toNat junk, c)
  else
    let r := getCommonGlyphsCount c
    match (r.2.glyphs.drop r.1).find? (fun g => g.ch = ch) with
    | some g => (g, r.2)
    | none =>
      match loadGlyphInfo face junk ch with
      | none => (badGlyph, r.2)
      | some g =>
        let c2 := { r.2 with glyphs := r.2.glyphs ++ [g], inserted := r.2.inserted + 1 }
        let c3 := if c2.inserted = 10 then { c2 with inserted := 0 } else c2
        let b := buildAtlas face junk newTex c3
        (b.2.1.glyphs.getLastD junk, b.2.1)

/-- `TextureFontPrivate::getGlyph(wchar_t, wchar_t)`: fall back when the
primary lookup did not yield a record for the requested code point. -/
def getGlyph2 (face : Face) (junk : Glyph) (newTex : Nat) (c : GlyphCache)
    (ch fallback : Nat) : Glyph × GlyphCache :=
  let r := getGlyph1 face junk newTex c ch
  if r.1.ch = ch then r else getGlyph1 face junk newTex r.2 fallback

/-- Modelled from the spec: `UTF8EncodedSize` of celutil/utf8.h (the
header is outside the repository slice) — the number of bytes of the UTF-8
encoding of a code point; always at least one. -/
def UTF8EncodedSize (ch : Nat) : Nat :=
  if ch < 0x80 then 1
  else if ch < 0x800 then 2
  else if ch < 0x10000 then 3
  else 4

theorem UTF8EncodedSize_pos (ch : Nat) : 1 ≤ UTF8EncodedSize ch := by
  unfold UTF8EncodedSize
  split
  · omega
  split
  · omega
  split <;> omega

/-- Modelled from the spec: `UTF8Decode` of celutil/utf8.h (outside the
slice) — decode the UTF-8 sequence starting at byte position `i`,
reporting failure as `none`. -/
def UTF8Decode (s : List Nat) (i : Nat) : Option Nat :=
  match s.get? i with
  | none => none
  | some c0 =>
    if c0 < 0x80 then some c0
    else if c0 &&& 0xe0 = 0xc0 then
      match s.get? (i + 1) with
      | some c1 =>
        if c1 &&& 0xc0 = 0x80 then some ((c0 &&& 0x1f) <<< 6 ||| (c1 &&& 0x3f))
        else none
      | none => none
    else if c0 &&& 0xf0 = 0xe0 then
      match s.get? (i + 1), s.get? (i + 2) with
      | some c1, some c2 =>
        if c1 &&& 0xc0 = 0x80 ∧ c2 &&& 0xc0 = 0x80 then
          some ((c0 &&& 0x0f) <<< 12 ||| (c1 &&& 0x3f) <<< 6 ||| (c2 &&& 0x3f))
        else none
      | _, _ => none
    else if c0 &&& 0xf8 = 0xf0 then
      match s.get? (i + 1), s.get? (i + 2), s.get? (i + 3) with
      | some c1, some c2, some c3 =>
        if c1 &&& 0xc0 = 0x80 ∧ c2 &&& 0xc0 = 0x80 ∧ c3 &&& 0xc0 = 0x80 then
          some ((c0 &&& 0x07) <<< 18 ||| (c1 &&& 0x3f) <<< 12 |||
                (c2 &&& 0x3f) <<< 6 ||| (c3 &&& 0x3f))
        else none
      | _, _, _ => none
    else none

/-- A transient quad-corner vertex (struct `FontVertex`). -/
structure FontVertex where
  x : Rat
  y : Rat
  u : Rat
  v : Rat
  deriving DecidableEq, Repr

/-- The character loop of `TextureFontPrivate::render(const string&, float,
float)`: decode, look the glyph up (with `?` as fallback), advance the
pen, and append one textured quad unless the bitmap is empty. -/
def renderLoop (face : Face) (junk : Glyph) (newTex : Nat) (str : List Nat) :
    Nat → Nat → GlyphCache → List FontVertex → Rat → Rat →
    Rat × GlyphCache × List FontVertex
  | 0, _, c, verts, x, _ => (x, c, verts)
  | fuel + 1, i, c, verts, x, y =>
    if i < str.length then
      match UTF8Decode str i with
      | none => (x, c, verts)
      | some ch =>
        let i' := i + UTF8EncodedSize ch
        let r := getGlyph2 face junk newTex c ch 0x3F
        let g := r.1
        let c2 := r.2
        let x1 := x + (g.bl : Rat)
        let y1 := y + (g.bt : Rat) - (g.bh : Rat)
        let w : Rat := g.bw
        let hh : Rat := g.bh
        let x2 := x1 + w
        let y2 := y1 + hh
        let x' := x + (g.ax : Rat)
        let y' := y + (g.ay : Rat)
        if g.bw = 0 ∨ g.bh = 0 then renderLoop face junk newTex str fuel i' c2 verts x' y'
        else
          let tx1 := g.tx
          let ty1 := g.ty
          let tx2 := tx1 + w / (c2.texWidth : Rat)
          let ty2 := ty1 + hh / (c2.texHeight : Rat)
          renderLoop face junk newTex str fuel i' c2
            (verts ++ [⟨x1, y1, tx1, ty2⟩, ⟨x2, y1, tx2, ty2⟩,
                       ⟨x1, y2, tx1, ty1⟩, ⟨x2, y2, tx2, ty1⟩]) x' y'
    else (x, c, verts)

/-- `TextureFontPrivate::render(const string&, float, float)`: nothing is
drawn while the atlas texture does not exist. -/
def renderString (face : Face) (junk : Glyph) (newTex : Nat) (c : GlyphCache)
    (verts : List FontVertex) (str : List Nat) (x y : Rat) :
    Rat × GlyphCache × List FontVertex :=
  if c.texName = 0 then (0, c, verts)
  else renderLoop face junk newTex str str.length 0 c verts x y

/-- The character loop of `TextureFont::getWidth`: identical traversal,
accumulating the advances. -/
def widthLoop (face : Face) (junk : Glyph) (newTex : Nat) (str : List Nat) :
    Nat → Nat → GlyphCache → Int → Int × GlyphCache
  | 0, _, c, width => (width, c)
  | fuel + 1, i, c, width =>
    if i < str.length then
      match UTF8Decode str i with
      | none => (width, c)
      | some ch =>
        let i' := i + UTF8EncodedSize ch
        let r := getGlyph2 face junk newTex c ch 0x3F
        widthLoop face junk newTex str fuel i' r.2 (width + r.1.ax)
    else (width, c)

/-- `TextureFont::getWidth`: the standalone string-width measurement. -/
def getWidthFun (face : Face) (junk : Glyph) (newTex : Nat) (c : GlyphCache)
    (str : List Nat) : Int × GlyphCache :=
  widthLoop face junk newTex str str.length 0 c 0

/-- `TextureFontPrivate::render(wchar_t, float, float)`: always appends
one quad and returns the glyph's x-advance. -/
def renderChar (face : Face) (junk : Glyph) (newTex : Nat) (c : GlyphCache)
    (verts : List FontVertex) (ch : Nat) (xoffset yoffset : Rat) :
    Rat × GlyphCache × List FontVertex :=
  let r := getGlyph2 face junk newTex c ch 0x3F
  let g := r.1
  let x1 := xoffset + (g.bl : Rat)
  let y1 := yoffset + (g.bt : Rat) - (g.bh : Rat)
  let x2 := x1 + (g.bw : Rat)
  let y2 := y1 + (g.bh : Rat)
  let tx1 := g.tx
  let ty1 := g.ty
  let tx2 := tx1 + (g.bw : Rat) / (r.2.texWidth : Rat)
  let ty2 := ty1 + (g.bh : Rat) / (r.2.texHeight : Rat)
  ((g.ax : Rat), r.2,
   verts ++ [⟨x1, y1, tx1, ty2⟩, ⟨x2, y1, tx2, ty2⟩,
             ⟨x1, y2, tx1, ty1⟩, ⟨x2, y2, tx2, ty1⟩])

/-- Calls issued against the graphics device, recorded as a trace. -/
inductive GLEvent where
  | drawVerts (verts : List FontVertex) (indices : List Nat)
  | uploadMVP (m : Int)
  | bindTexture (n : Nat)
  | useProgram
  deriving DecidableEq, Repr

/-- The full `TextureFontPrivate` state: the glyph cache plus the
batching/shader bookkeeping.  The model-view-projection matrix is an
opaque token. -/
structure TFState where
  cache : GlyphCache
  mvp : Int
  shaderInUse : Bool
  progOK : Bool
  fontVertices : List FontVertex
  maxAscent : Int
  maxDescent : Int
  deriving DecidableEq, Repr

/-- The index-generation loop of `TextureFontPrivate::flush`: two
triangles per quad, stepping the (16-bit) index by four. -/
def flushIndicesGo (index limit : Nat) : List Nat :=
  if index < limit then
    [index, index + 1, index + 2, index + 1, index + 3, index + 2] ++
      flushIndicesGo (index + 4) limit
  else []
termination_by limit - index
decreasing_by
  omega

/-- The index list `flush` builds for a batch of `n` vertices; the C++
loop compares against `(unsigned short) size`, i.e. the size modulo
2^16. -/
def flushIndices (n : Nat) : List Nat :=
  flushIndicesGo 0 (n % 65536)

/-- `TextureFontPrivate::flush`: an incomplete batch (fewer than four
vertices) is left alone; otherwise one indexed draw is submitted and the
batch cleared. -/
def flush (s : TFState) : TFState × List GLEvent :=
  if s.fontVertices.length < 4 then (s, [])
  else ({ s with fontVertices := [] },
        [.drawVerts s.fontVertices (flushIndices s.fontVertices.length)])

/-- `TextureFont::setMVPMatrix`: store the matrix; if the shader is live,
flush the pending batch and only then upload the new matrix. -/
def setMVPMatrix (s : TFState) (m : Int) : TFState × List GLEvent :=
  let s := { s with mvp := m }
  if s.progOK && s.shaderInUse then
    let (s, evs) := flush s
    (s, evs ++ [.uploadMVP m])
  else (s, [])

/-- `TextureFont::bind`: activate atlas texture and shader and upload the
stored matrix (only when the shader program exists and the atlas texture
has been built). -/
def bind (s : TFState) : TFState × List GLEvent :=
  if !s.progOK then (s, [])
  else if s.cache.texName ≠ 0 then
    ({ s with shaderInUse := true },
     [.bindTexture s.cache.texName, .useProgram, .uploadMVP s.mvp])
  else (s, [])

/-- The `(short)` cast in `TextureFont::getAdvance`. -/
def toShort (z : Int) : Int :=
  (z + 32768) % 65536 - 32768

/-- `TextureFont::getAdvance`: the x-advance of a glyph (with fallback
`?`), truncated to `short`. -/
def getAdvance (face : Face) (junk : Glyph) (newTex : Nat) (s : TFState)
    (ch : Nat) : Int × TFState :=
  let r := getGlyph2 face junk newTex s.cache ch 0x3F
  (toShort r.1.ax, { s with cache := r.2 })

/-- `TextureFont::getHeight`: ascent plus descent. -/
def getHeight (s : TFState) : Int :=
  s.maxAscent + s.maxDescent

/-- Events visible at the overlay level: a glyph-render request to the
font (code point plus pen position), or a forwarded graphics call. -/
inductive OvEvent where
  | renderGlyph (ch : Nat) (x y : Rat)
  | gl (e : GLEvent)
  deriving DecidableEq, Repr

/-- The `Overlay` text-layout state: cursor, offset accumulators, the
save/restore stack, the text-block nesting counter and the bound font. -/
structure OverlayState where
  font : Option TFState
  global : Rat × Rat
  xoffset : Rat
  yoffset : Rat
  posStack : List (Rat × Rat)
  textBlock : Nat
  useTexture : Bool
  fontChanged : Bool
  mvp : Int
  deriving DecidableEq, Repr

/-- `Overlay::savePos`. -/
def savePos (s : OverlayState) : OverlayState :=
  { s with posStack := s.posStack ++ [s.global] }

/-- `Overlay::restorePos`: pop the cursor (if any) and zero both offset
accumulators. -/
def restorePos (s : OverlayState) : OverlayState :=
  let s :=
    match s.posStack.getLast? with
    | some p => { s with global := p, posStack := s.posStack.dropLast }
    | none => s
  { s with xoffset := 0, yoffset := 0 }

/-- `Overlay::beginText`: save the cursor, open a block, and (when a font
is bound) activate its shader and upload the overlay's transform. -/
def beginText (s : OverlayState) : OverlayState × List OvEvent :=
  let s := savePos s
  let s := { s with textBlock := s.textBlock + 1 }
  match s.font with
  | none => (s, [])
  | some f =>
    let r1 := bind f
    let r2 := setMVPMatrix r1.1 s.mvp
    ({ s with font := some r2.1, useTexture := true, fontChanged := false },
     (r1.2 ++ r2.2).map OvEvent.gl)

/-- `Overlay::print(wchar_t)` (the `char` overload is byte-for-byte the
same logic): re-bind if needed, handle `\n` inside a text block by
popping back to the block origin and dropping one line, and otherwise
render the glyph at cursor plus offset and advance `xoffset`. -/
def overlayPrint (face : Face) (junk : Glyph) (newTex : Nat) (s : OverlayState)
    (c : Nat) : OverlayState × List OvEvent :=
  match s.font with
  | none => (s, [])
  | some f =>
    let rb :=
      if !s.useTexture || s.fontChanged then
        let r1 := bind f
        let r2 := setMVPMatrix r1.1 s.mvp
        (({ s with useTexture := true, fontChanged := false } : OverlayState), r2.1,
         (r1.2 ++ r2.2).map OvEvent.gl)
      else (s, f, ([] : List OvEvent))
    let s1 := rb.1
    let f1 := rb.2.1
    let evs0 := rb.2.2
    if c = 10 then
      if s1.textBlock > 0 then
        let s2 := restorePos s1
        let s3 := { s2 with global := (s2.global.1, s2.global.2 - (1 + (getHeight f1 : Rat))) }
        let s4 := savePos s3
        ({ s4 with font := some f1 }, evs0)
      else ({ s1 with font := some f1 }, evs0)
    else
      let px := s1.global.1 + s1.xoffset
      let py := s1.global.2 + s1.yoffset
      let rr := renderChar face junk newTex f1.cache f1.fontVertices c px py
      let f2 := { f1 with cache := rr.2.1, fontVertices := rr.2.2 }
      let ra := getAdvance face junk newTex f2 c
      ({ s1 with font := some ra.2, xoffset := s1.xoffset + (ra.1 : Rat) },
       evs0 ++ [.renderGlyph c px py])

/-- Run `Overlay::print` over a list of code points, concatenating the
event traces. -/
def overlayPrintAll (face : Face) (junk : Glyph) (newTex : Nat)
    (s : OverlayState) : List Nat → OverlayState × List OvEvent
  | [] => (s, [])
  | c :: cs =>
    let r := overlayPrint face junk newTex s c
    let r2 := overlayPrintAll face junk newTex r.1 cs
    (r2.1, r.2 ++ r2.2)

/-- The glyph-render requests contained in an overlay event trace. -/
def renderEvents (evs : List OvEvent) : List OvEvent :=
  evs.filter fun e =>
    match e with
    | .renderGlyph _ _ _ => true
    | .gl _ => false

/-- An overlay state with the cursor at (10, 10), font `f` bound, no open
text block and clean offsets: the starting point of the spec's text-block
scenario. -/
def overlayStart (f : TFState) (m : Int) : OverlayState :=
  { font := some f, global := (10, 10), xoffset := 0, yoffset := 0,
    posStack := [], textBlock := 0, useTexture := false,
    fontChanged := false, mvp := m }

/-- The decoder states of `OverlayStreamBuf` (named as in overlay.h). -/
inductive UTF8Status where
  | start
  | multibyte
  deriving DecidableEq, Repr

/-- The streaming-decoder state of `OverlayStreamBuf`. -/
structure StreamBufState where
  decodeState : UTF8Status
  decodedChar : Nat
  decodeShift : Nat
  deriving DecidableEq, Repr

/-- The initial decoder state. -/
def sbStart : StreamBufState :=
  { decodeState := .start, decodedChar := 0, decodeShift := 0 }

/-- `OverlayStreamBuf::overflow`: consume one byte, returning the updated
decoder state, the code points handed to `Overlay::print`, and the value
returned to the stream (always the byte itself). -/
def overflow (s : StreamBufState) (c : Nat) : StreamBufState × List Nat × Nat :=
  match s.decodeState with
  | .start =>
    if c < 0x80 then (s, [c], c)
    else
      let count : Nat :=
        if c &&& 0xe0 = 0xc0 then 2
        else if c &&& 0xf0 = 0xe0 then 3
        else if c &&& 0xf8 = 0xf0 then 4
        else if c &&& 0xfc = 0xf8 then 5
        else if c &&& 0xfe = 0xfc then 6
        else 1
      if count > 1 then
        let mask := (1 <<< (7 - count)) - 1
        let shift := (count - 1) * 6
        ({ decodeState := .multibyte, decodedChar := (c &&& mask) <<< shift,
           decodeShift := shift }, [], c)
      else (s, [], c)
  | .multibyte =>
    if c &&& 0xc0 = 0x80 then
      let shift := s.decodeShift - 6
      let dc := s.decodedChar ||| (c &&& 0x3f) <<< shift
      if shift = 0 then
        ({ decodeState := .start, decodedChar := dc, decodeShift := 0 }, [dc], c)
      else
        ({ decodeState := .multibyte, decodedChar := dc, decodeShift := shift }, [], c)
    else ({ s with decodeState := .start }, [], c)

/-- Feed a byte list through `overflow` one byte at a time, collecting
every printed code point. -/
def feed (s : StreamBufState) : List Nat → StreamBufState × List Nat
  | [] => (s, [])
  | c :: cs =>
    let (s, out, _) := overflow s c
    let (s', out') := feed s cs
    (s', out ++ out')

/-- A half-space plane in camera space; the signed distance of a point is
the dot product with the inward normal plus the offset. -/
structure Plane where
  nx : Rat
  ny : Rat
  nz : Rat
  d : Rat
  deriving DecidableEq, Repr

/-- Signed distance from a point to a plane. -/
def signedDist (pl : Plane) (p : Rat × Rat × Rat) : Rat :=
  pl.nx * p.1 + pl.ny * p.2.1 + pl.nz * p.2.2 + pl.d

/-- The classification results of the frustum tests (`Frustum::Aspect`). -/
inductive Aspect where
  | Outside
  | Inside
  | Intersect
  deriving DecidableEq, Repr

/-- The plane scan of the sphere test, with the running
intersection flag. -/
def testSphereGo (center : Rat × Rat × Rat) (radius : Rat) (inter : Bool) :
    List Plane → Aspect
  | [] => if inter then .Intersect else .Inside
  | pl :: rest =>
    let dist := signedDist pl center
    if dist < -radius then .Outside
    else if |dist| ≤ radius then testSphereGo center radius true rest
    else testSphereGo center radius inter rest

/-- Modelled from the spec: `Frustum::testSphere` (frustum.cpp is not in
the repository slice; only the declaration in frustum.h is).  Outside on
the first plane with distance below `-radius` (early exit); Intersect if
no plane is Outside and some plane has absolute distance at most
`radius`; else Inside. -/
def testSphere (planes : List Plane) (center : Rat × Rat × Rat) (radius : Rat) :
    Aspect :=
  testSphereGo center radius false planes

/-- Modelled from the spec: the `Frustum` constructor (frustum.cpp absent)
derives six inward-facing planes from the field of view, aspect ratio and
near/far distances, for a camera at the origin looking down `-z`; `h` and
`w` are the tangents of the half field-of-view vertically and
horizontally.  The spec's scenario (fov 90°, aspect 1, near 1, far 1000:
`(0,0,-500)` Inside, `(0,0,500)` Outside, `(0,0,0.5)` Outside being in
front of the near plane) pins the orientation used here. -/
def mkFrustum (hTan wTan nearD farD : Rat) : List Plane :=
  [ { nx := 0, ny := 1, nz := -hTan, d := 0 },
    { nx := 0, ny := -1, nz := -hTan, d := 0 },
    { nx := 1, ny := 0, nz := -wTan, d := 0 },
    { nx := -1, ny := 0, nz := -wTan, d := 0 },
    { nx := 0, ny := 0, nz := -1, d := -nearD },
    { nx := 0, ny := 0, nz := 1, d := farD } ]

/-! Theorems. -/

theorem mul_pow_lor (n : Nat) :
    ∀ a b : Nat, b < 2 ^ n → a * 2 ^ n ||| b = a * 2 ^ n + b := by
  induction n with
  | zero =>
    intro a b hb
    have : b = 0 := by omega
    subst this
    simp
  | succ n ih =>
    intro a b hb
    have hb2 : b / 2 < 2 ^ n := by
      rw [pow_succ] at hb
      omega
    have h1 : a * 2 ^ (n + 1) = Nat.bit false (a * 2 ^ n) := by
      simp [Nat.bit, pow_succ]
      ring
    rw [h1, ← Nat.bit_decomp b, Nat.lor_bit]
    rw [Nat.div2_val, ih a (b / 2) hb2]
    rw [Nat.bit_val, Nat.bit_val]
    have h2 : (Nat.bodd b).toNat = b % 2 := (Nat.mod_two_of_bodd b).symm
    simp only [Bool.false_or, h2]
    have h4 : Nat.bit b.bodd (b / 2) = b := by
      rw [← Nat.div2_val]
      exact Nat.bit_decomp b
    rw [h4]
    simp only [Bool.toNat_false]
    omega

/-- An empty glyph cache (the state of a freshly constructed
`TextureFontPrivate` before any atlas is built). -/
def cacheEmpty : GlyphCache :=
  { glyphs := [], texName := 0, texWidth := 0, texHeight := 0,
    maxTextureSize := 1024, commonGlyphsCount := 0, inserted := 0 }

/-- A font state with no pending vertices. -/
def tfEmpty : TFState :=
  { cache := cacheEmpty, mvp := 0, shaderInUse := false, progOK := false,
    fontVertices := [], maxAscent := 0, maxDescent := 0 }

/-- C8: calling `flush()` when the pending vertex batch is empty is a
no-op: no draw call is submitted and the state is unchanged. -/
theorem c8_flush_empty_noop (s : TFState) (h : s.fontVertices = []) :
    flush s = (s, []) := by
  unfold flush
  rw [h]
  simp

theorem c8_flush_empty_noop_witness : flush tfEmpty = (tfEmpty, []) :=
  c8_flush_empty_noop tfEmpty rfl

/-- C4: whenever `setMVPMatrix` is called and the new transform is
uploaded to the shader program, every pending glyph quad is first
submitted as a draw (the upload is the last event, preceded by the draw
of the whole pending batch whenever one exists), and no vertex remains
pending afterwards. -/
theorem c4_setMVPMatrix_flushes_before_upload (s : TFState) (m : Int)
    (hdvd : 4 ∣ s.fontVertices.length)
    (hup : GLEvent.uploadMVP m ∈ (setMVPMatrix s m).2) :
    (setMVPMatrix s m).2 =
      (if s.fontVertices = [] then []
       else [GLEvent.drawVerts s.fontVertices (flushIndices s.fontVertices.length)])
        ++ [GLEvent.uploadMVP m] ∧
    (setMVPMatrix s m).1.fontVertices = [] := by
  unfold setMVPMatrix at *
  by_cases hb : s.progOK && s.shaderInUse
  · simp only [hb, if_true] at *
    unfold flush at *
    by_cases hlen : s.fontVertices.length < 4
    · have hnil : s.fontVertices = [] := by
        rcases hdvd with ⟨k, hk⟩
        have : k = 0 := by omega
        subst this
        simp at hk
        exact hk
      simp only [hnil] at *
      simp
    · simp only [if_neg hlen] at *
      have hne : s.fontVertices ≠ [] := by
        intro hcon
        rw [hcon] at hlen
        simp at hlen
      simp [hne]
  · simp only [hb, if_false] at hup
    simp at hup

/-- A font state holding one pending quad with a live shader. -/
def tfOneQuad : TFState :=
  { cache := cacheEmpty, mvp := 0, shaderInUse := true, progOK := true,
    fontVertices :=
      [⟨0, 0, 0, 0⟩, ⟨1, 0, 1, 0⟩, ⟨0, 1, 0, 1⟩, ⟨1, 1, 1, 1⟩],
    maxAscent := 0, maxDescent := 0 }

theorem c4_setMVPMatrix_flushes_before_upload_witness :
    (setMVPMatrix tfOneQuad 7).2 =
      (if tfOneQuad.fontVertices = [] then []
       else [GLEvent.drawVerts tfOneQuad.fontVertices
               (flushIndices tfOneQuad.fontVertices.length)])
        ++ [GLEvent.uploadMVP 7] ∧
    (setMVPMatrix tfOneQuad 7).1.fontVertices = [] :=
  c4_setMVPMatrix_flushes_before_upload tfOneQuad 7 (by decide) (by decide)

theorem testSphereGo_outside (c : Rat × Rat × Rat) (r : Rat) :
    ∀ (planes : List Plane) (b : Bool),
      (∃ pl ∈ planes, signedDist pl c < -r) →
      testSphereGo c r b planes = .Outside := by
  intro planes
  induction planes with
  | nil =>
    rintro b ⟨pl, hmem, _⟩
    simp at hmem
  | cons p rest ih =>
    rintro b ⟨pl, hmem, hd⟩
    by_cases h1 : signedDist p c < -r
    · simp [testSphereGo, h1]
    · have hplr : pl ∈ rest := by
        rcases List.mem_cons.mp hmem with h | h
        · exact absurd (h ▸ hd) h1
        · exact h
      by_cases h2 : |signedDist p c| ≤ r
      · simp only [testSphereGo, if_neg h1, if_pos h2]
        exact ih true ⟨pl, hplr, hd⟩
      · simp only [testSphereGo, if_neg h1, if_neg h2]
        exact ih b ⟨pl, hplr, hd⟩

theorem testSphereGo_intersect (c : Rat × Rat × Rat) (r : Rat) :
    ∀ (planes : List Plane) (b : Bool),
      (∀ pl ∈ planes, ¬(signedDist pl c < -r)) →
      ((∃ pl ∈ planes, |signedDist pl c| ≤ r) ∨ b = true) →
      testSphereGo c r b planes = .Intersect := by
  intro planes
  induction planes with
  | nil =>
    rintro b _ (⟨pl, hmem, _⟩ | hb)
    · simp at hmem
    · simp [testSphereGo, hb]
  | cons p rest ih =>
    rintro b hout hex
    have h1 : ¬(signedDist p c < -r) := hout p (List.mem_cons_self p rest)
    have hout' : ∀ pl ∈ rest, ¬(signedDist pl c < -r) :=
      fun pl h => hout pl (List.mem_cons_of_mem p h)
    by_cases h2 : |signedDist p c| ≤ r
    · simp only [testSphereGo, if_neg h1, if_pos h2]
      exact ih true hout' (Or.inr rfl)
    · simp only [testSphereGo, if_neg h1, if_neg h2]
      apply ih b hout'
      rcases hex with ⟨pl, hmem, habs⟩ | hb
      · rcases List.mem_cons.mp hmem with h | h
        · exact absurd (h ▸ habs) h2
        · exact Or.inl ⟨pl, h, habs⟩
      · exact Or.inr hb

theorem testSphereGo_inside (c : Rat × Rat × Rat) (r : Rat) :
    ∀ (planes : List Plane),
      (∀ pl ∈ planes, ¬(signedDist pl c < -r)) →
      (∀ pl ∈ planes, ¬(|signedDist pl c| ≤ r)) →
      testSphereGo c r false planes = .Inside := by
  intro planes
  induction planes with
  | nil =>
    intro _ _
    simp [testSphereGo]
  | cons p rest ih =>
    intro hout habs
    have h1 : ¬(signedDist p c < -r) := hout p (List.mem_cons_self p rest)
    have h2 : ¬(|signedDist p c| ≤ r) := habs p (List.mem_cons_self p rest)
    simp only [testSphereGo, if_neg h1, if_neg h2]
    exact ih (fun pl h => hout pl (List.mem_cons_of_mem p h))
      (fun pl h => habs pl (List.mem_cons_of_mem p h))

/-- C9 as stated is false at its third consequence: for the frustum of
the spec's own scenario (fov 90°, aspect 1, near 1, far 1000) the
radius-0 sphere at the apex (the origin) is classified Outside, not
Inside — the apex lies in front of the near plane, exactly like the
spec's point `(0,0,0.5)`. -/
theorem c9_apex_counterexample :
    testSphere (mkFrustum 1 1 1 1000) (0, 0, 0) 0 = .Outside ∧
    testSphere (mkFrustum 1 1 1 1000) (0, 0, 0) 0 ≠ .Inside := by
  have h : testSphere (mkFrustum 1 1 1 1000) (0, 0, 0) 0 = .Outside := by
    norm_num [testSphere, mkFrustum, testSphereGo, signedDist]
  refine ⟨h, ?_⟩
  rw [h]
  decide

/-- C9 (amended): `testSphere` returns Outside if the signed distance to
some plane is less than `-radius`; Intersect if no plane yields Outside
and the absolute distance to some plane is at most `radius`; Inside when
every plane's distance exceeds `radius` in the positive direction; and a
radius-0 sphere at the frustum apex is Outside (the apex lies in front of
the near plane), not Inside. -/
theorem c9_testSphere_classification :
    (∀ (planes : List Plane) (c : Rat × Rat × Rat) (r : Rat),
       (∃ pl ∈ planes, signedDist pl c < -r) →
       testSphere planes c r = .Outside) ∧
    (∀ (planes : List Plane) (c : Rat × Rat × Rat) (r : Rat),
       (∀ pl ∈ planes, ¬(signedDist pl c < -r)) →
       (∃ pl ∈ planes, |signedDist pl c| ≤ r) →
       testSphere planes c r = .Intersect) ∧
    (∀ (planes : List Plane) (c : Rat × Rat × Rat) (r : Rat),
       (∀ pl ∈ planes, ¬(signedDist pl c < -r)) →
       (∀ pl ∈ planes, ¬(|signedDist pl c| ≤ r)) →
       testSphere planes c r = .Inside) ∧
    testSphere (mkFrustum 1 1 1 1000) (0, 0, 0) 0 = .Outside := by
  refine ⟨?_, ?_, ?_, ?_⟩
  · intro planes c r h
    exact testSphereGo_outside c r planes false h
  · intro planes c r hout hex
    exact testSphereGo_intersect c r planes false hout (Or.inl hex)
  · intro planes c r hout habs
    exact testSphereGo_inside c r planes hout habs
  · norm_num [testSphere, mkFrustum, testSphereGo, signedDist]

theorem c9_testSphere_classification_witness :
    testSphere (mkFrustum 1 1 1 1000) (0, 0, 500) 1 = .Outside ∧
    testSphere (mkFrustum 1 1 1 1000) (0, 0, -1) (1 / 2) = .Intersect ∧
    testSphere (mkFrustum 1 1 1 1000) (0, 0, -500) 1 = .Inside := by
  refine ⟨?_, ?_, ?_⟩
  · exact c9_testSphere_classification.1 (mkFrustum 1 1 1 1000) (0, 0, 500) 1
      ⟨{ nx := 0, ny := 0, nz := -1, d := -1 }, by simp [mkFrustum],
       by norm_num [signedDist]⟩
  · exact c9_testSphere_classification.2.1 (mkFrustum 1 1 1 1000) (0, 0, -1) (1 / 2)
      (by norm_num [mkFrustum, signedDist])
      ⟨{ nx := 0, ny := 0, nz := -1, d := -1 }, by simp [mkFrustum],
       by norm_num [signedDist]⟩
  · exact c9_testSphere_classification.2.2.1 (mkFrustum 1 1 1 1000) (0, 0, -500) 1
      (by norm_num [mkFrustum, signedDist]) (by norm_num [mkFrustum, signedDist])

/-- Head-byte patterns of the 2–6 byte legacy UTF-8 forms (matching the
bit tests in `OverlayStreamBuf::overflow`). -/
def headByte (count c : Nat) : Prop :=
  (count = 2 ∧ c &&& 0xe0 = 0xc0) ∨ (count = 3 ∧ c &&& 0xf0 = 0xe0) ∨
  (count = 4 ∧ c &&& 0xf8 = 0xf0) ∨ (count = 5 ∧ c &&& 0xfc = 0xf8) ∨
  (count = 6 ∧ c &&& 0xfe = 0xfc)

instance (count c : Nat) : Decidable (headByte count c) := by
  unfold headByte
  infer_instance

/-- The code point denoted by a legacy sequence: the payload bits of the
head byte (the low `7 - count` bits) followed by the low six bits of each
continuation byte. -/
def legacyValue (count h : Nat) (conts : List Nat) : Nat :=
  conts.foldl (fun acc b => acc * 64 + b % 64) (h % 2 ^ (7 - count))

/-- A valid legacy UTF-8 byte sequence (1 to 6 bytes) together with the
code point it denotes. -/
def ValidLegacySeq : List Nat → Nat → Prop
  | [c], v => c < 0x80 ∧ v = c
  | h :: conts, v =>
      headByte (conts.length + 1) h ∧ (∀ b ∈ conts, b &&& 0xc0 = 0x80) ∧
      v = legacyValue (conts.length + 1) h conts
  | _, _ => False

instance : ∀ (s : List Nat) (v : Nat), Decidable (ValidLegacySeq s v)
  | [], _ => by
    unfold ValidLegacySeq
    infer_instance
  | [_], _ => by
    unfold ValidLegacySeq
    infer_instance
  | _ :: _ :: _, _ => by
    unfold ValidLegacySeq
    infer_instance

theorem feed_conts : ∀ (conts : List Nat) (V : Nat),
    (∀ b ∈ conts, b &&& 0xc0 = 0x80) → conts ≠ [] →
    feed { decodeState := .multibyte, decodedChar := V * 2 ^ (6 * conts.length),
           decodeShift := 6 * conts.length } conts
      = ({ decodeState := .start,
           decodedChar := conts.foldl (fun acc b => acc * 64 + b % 64) V,
           decodeShift := 0 },
         [conts.foldl (fun acc b => acc * 64 + b % 64) V]) := by
  intro conts
  induction conts with
  | nil =>
    intro V _ hne
    exact absurd rfl hne
  | cons c cs ih =>
    intro V hcont _
    have hc : c &&& 0xc0 = 0x80 := hcont c (List.mem_cons_self c cs)
    have hc64 : c &&& 63 = c % 64 := Nat.and_pow_two_sub_one_eq_mod c 6
    cases cs with
    | nil =>
      show feed _ [c] = _
      simp only [feed, overflow, hc, if_pos rfl]
      norm_num
      rw [hc64]
      have := mul_pow_lor 6 V (c % 64) (Nat.mod_lt _ (by norm_num))
      norm_num at this
      exact this
    | cons c2 cs2 =>
      have hpos : 0 < (2:Nat) ^ (6 * (c2 :: cs2).length) := pow_pos (by norm_num) _
      have hdc : V * 2 ^ (6 * (c :: c2 :: cs2).length) |||
            (c &&& 63) <<< (6 * (c :: c2 :: cs2).length - 6)
          = (V * 64 + c % 64) * 2 ^ (6 * (c2 :: cs2).length) := by
        have hsh : 6 * (c :: c2 :: cs2).length - 6 = 6 * (c2 :: cs2).length := by
          simp only [List.length_cons]
          omega
        rw [hsh, hc64, Nat.shiftLeft_eq]
        have h2 : (2:Nat) ^ (6 * (c :: c2 :: cs2).length)
            = 64 * 2 ^ (6 * (c2 :: cs2).length) := by
          simp only [List.length_cons]
          rw [show 6 * (cs2.length + 1 + 1) = 6 + 6 * (cs2.length + 1) by ring, pow_add]
          norm_num
        have hb : c % 64 * 2 ^ (6 * (c2 :: cs2).length)
            < 2 ^ (6 * (c :: c2 :: cs2).length) := by
          rw [h2]
          exact (Nat.mul_lt_mul_right hpos).mpr (Nat.mod_lt _ (by norm_num))
        rw [mul_pow_lor _ V _ hb, h2]
        ring
      have hne0 : ¬(6 * (c :: c2 :: cs2).length - 6 = 0) := by
        simp only [List.length_cons]
        omega
      have hov : overflow
          { decodeState := .multibyte, decodedChar := V * 2 ^ (6 * (c :: c2 :: cs2).length),
            decodeShift := 6 * (c :: c2 :: cs2).length } c
          = ({ decodeState := .multibyte,
               decodedChar := (V * 64 + c % 64) * 2 ^ (6 * (c2 :: cs2).length),
               decodeShift := 6 * (c :: c2 :: cs2).length - 6 }, [], c) := by
        simp only [overflow, hc]
        rw [if_pos trivial, if_neg hne0, hdc]
      have hsh : 6 * (c :: c2 :: cs2).length - 6 = 6 * (c2 :: cs2).length := by
        simp only [List.length_cons]
        omega
      have hfeed := ih (V * 64 + c % 64)
        (fun b hb => hcont b (List.mem_cons_of_mem c hb)) (by simp)
      show feed _ (c :: c2 :: cs2) = _
      rw [feed, hov]
      dsimp only
      rw [hsh] at hov ⊢
      rw [hfeed]
      simp [List.foldl]

theorem overflow_head (count h : Nat) (hh : headByte count h) :
    overflow sbStart h
      = ({ decodeState := .multibyte,
           decodedChar := (h % 2 ^ (7 - count)) * 2 ^ (6 * (count - 1)),
           decodeShift := 6 * (count - 1) }, [], h) := by
  have hsub : ∀ A B V : Nat, h &&& A = V → A &&& B = B → h &&& B = V &&& B := by
    intro A B V hA hAB
    conv_lhs => rw [← hAB, ← Nat.and_assoc, hA]
  rcases hh with ⟨hc, hm⟩ | ⟨hc, hm⟩ | ⟨hc, hm⟩ | ⟨hc, hm⟩ | ⟨hc, hm⟩ <;> subst hc
  · have hx : ∀ B : Nat, 224 &&& B = B → h &&& B = 192 &&& B :=
      fun B hB => hsub 224 B 192 hm hB
    have hge : ¬(h < 128) := by
      have h80 : h &&& 128 = 128 := by
        rw [hx 128 (by decide)]
        decide
      have hle : h &&& 128 ≤ h := Nat.and_le_left
      omega
    have hmask : h &&& 31 = h % 32 := by
      have := Nat.and_pow_two_sub_one_eq_mod h 5
      norm_num at this
      exact this
    simp only [overflow, sbStart]
    rw [if_neg hge]
    simp only [hm]
    norm_num [Nat.shiftLeft_eq, hmask]
  · have hx : ∀ B : Nat, 240 &&& B = B → h &&& B = 224 &&& B :=
      fun B hB => hsub 240 B 224 hm hB
    have hge : ¬(h < 128) := by
      have h80 : h &&& 128 = 128 := by
        rw [hx 128 (by decide)]
        decide
      have hle : h &&& 128 ≤ h := Nat.and_le_left
      omega
    have hn0 : ¬(h &&& 224 = 192) := by
      rw [hx 224 (by decide)]
      decide
    have hmask : h &&& 15 = h % 16 := by
      have := Nat.and_pow_two_sub_one_eq_mod h 4
      norm_num at this
      exact this
    simp only [overflow, sbStart]
    rw [if_neg hge]
    simp only [hm, hn0]
    norm_num [Nat.shiftLeft_eq, hmask]
  · have hx : ∀ B : Nat, 248 &&& B = B → h &&& B = 240 &&& B :=
      fun B hB => hsub 248 B 240 hm hB
    have hge : ¬(h < 128) := by
      have h80 : h &&& 128 = 128 := by
        rw [hx 128 (by decide)]
        decide
      have hle : h &&& 128 ≤ h := Nat.and_le_left
      omega
    have hn0 : ¬(h &&& 224 = 192) := by
      rw [hx 224 (by decide)]
      decide
    have hn1 : ¬(h &&& 240 = 224) := by
      rw [hx 240 (by decide)]
      decide
    have hmask : h &&& 7 = h % 8 := by
      have := Nat.and_pow_two_sub_one_eq_mod h 3
      norm_num at this
      exact this
    simp only [overflow, sbStart]
    rw [if_neg hge]
    simp only [hm, hn0, hn1]
    norm_num [Nat.shiftLeft_eq, hmask]
  · have hx : ∀ B : Nat, 252 &&& B = B → h &&& B = 248 &&& B :=
      fun B hB => hsub 252 B 248 hm hB
    have hge : ¬(h < 128) := by
      have h80 : h &&& 128 = 128 := by
        rw [hx 128 (by decide)]
        decide
      have hle : h &&& 128 ≤ h := Nat.and_le_left
      omega
    have hn0 : ¬(h &&& 224 = 192) := by
      rw [hx 224 (by decide)]
      decide
    have hn1 : ¬(h &&& 240 = 224) := by
      rw [hx 240 (by decide)]
      decide
    have hn2 : ¬(h &&& 248 = 240) := by
      rw [hx 248 (by decide)]
      decide
    have hmask : h &&& 3 = h % 4 := by
      have := Nat.and_pow_two_sub_one_eq_mod h 2
      norm_num at this
      exact this
    simp only [overflow, sbStart]
    rw [if_neg hge]
    simp only [hm, hn0, hn1, hn2]
    norm_num [Nat.shiftLeft_eq, hmask]
  · have hx : ∀ B : Nat, 254 &&& B = B → h &&& B = 252 &&& B :=
      fun B hB => hsub 254 B 252 hm hB
    have hge : ¬(h < 128) := by
      have h80 : h &&& 128 = 128 := by
        rw [hx 128 (by decide)]
        decide
      have hle : h &&& 128 ≤ h := Nat.and_le_left
      omega
    have hn0 : ¬(h &&& 224 = 192) := by
      rw [hx 224 (by decide)]
      decide
    have hn1 : ¬(h &&& 240 = 224) := by
      rw [hx 240 (by decide)]
      decide
    have hn2 : ¬(h &&& 248 = 240) := by
      rw [hx 248 (by decide)]
      decide
    have hn3 : ¬(h &&& 252 = 248) := by
      rw [hx 252 (by decide)]
      decide
    have hmask : h &&& 1 = h % 2 := Nat.and_one_is_mod h
    simp only [overflow, sbStart]
    rw [if_neg hge]
    simp only [hm, hn0, hn1, hn2, hn3]
    norm_num [Nat.shiftLeft_eq, hmask]

/-- C2: the overlay stream's `overflow` never reports an error (it always
returns the byte it was given); a valid 1–6 byte legacy UTF-8 sequence
fed byte-by-byte from the start state produces exactly one
`Overlay::print` call carrying the decoded code point and leaves the
decoder back in its start state; and a byte that is not a valid
continuation while a multi-byte sequence is in progress resets the
decoder, printing nothing. -/
theorem c2_stream_decoder_behaviour :
    (∀ (s : StreamBufState) (c : Nat), (overflow s c).2.2 = c) ∧
    (∀ (seq : List Nat) (v : Nat), ValidLegacySeq seq v →
       (feed sbStart seq).2 = [v] ∧ (feed sbStart seq).1.decodeState = .start) ∧
    (∀ (s : StreamBufState) (c : Nat), s.decodeState = .multibyte →
       ¬(c &&& 0xc0 = 0x80) →
       overflow s c = ({ s with decodeState := .start }, [], c)) := by
  refine ⟨?_, ?_, ?_⟩
  · rintro ⟨st, dc, sh⟩ c
    cases st <;> simp only [overflow]
    · repeat' split
      all_goals rfl
    · repeat' split
      all_goals rfl
  · intro seq v hv
    match seq, hv with
    | [c], ⟨hc, hveq⟩ =>
      subst hveq
      simp [feed, overflow, sbStart, hc]
    | h :: c2 :: cs, ⟨hhead, hcont, hveq⟩ =>
      subst hveq
      have hoh := overflow_head ((c2 :: cs).length + 1) h hhead
      have hlen : (c2 :: cs).length + 1 - 1 = (c2 :: cs).length := by omega
      rw [hlen] at hoh
      have hfc := feed_conts (c2 :: cs) (h % 2 ^ (7 - ((c2 :: cs).length + 1)))
        hcont (by simp)
      show (feed sbStart (h :: c2 :: cs)).2 = _ ∧ _
      rw [feed, hoh]
      dsimp only
      rw [hfc]
      exact ⟨rfl, rfl⟩
  · rintro ⟨st, dc, sh⟩ c hst hc
    subst hst
    simp only [overflow]
    rw [if_neg hc]

theorem c2_stream_decoder_behaviour_witness :
    (feed sbStart [0xC3, 0xA9]).2 = [0xE9] ∧
    (feed sbStart [0xC3, 0xA9]).1.decodeState = .start :=
  c2_stream_decoder_behaviour.2.1 [0xC3, 0xA9] 0xE9 (by decide)

theorem widthLoop_acc (face : Face) (junk : Glyph) (newTex : Nat) (str : List Nat) :
    ∀ (fuel i : Nat) (c : GlyphCache) (w : Int),
      (widthLoop face junk newTex str fuel i c w).1
        = w + (widthLoop face junk newTex str fuel i c 0).1 := by
  intro fuel
  induction fuel with
  | zero =>
    intro i c w
    simp [widthLoop]
  | succ fuel ih =>
    intro i c w
    rw [widthLoop, widthLoop]
    by_cases hi : i < str.length
    · rw [if_pos hi, if_pos hi]
      cases hdec : UTF8Decode str i with
      | none => simp
      | some ch =>
        dsimp only
        rw [ih _ _ (w + _), ih _ _ (0 + _)]
        omega
    · rw [if_neg hi, if_neg hi]
      simp

theorem renderLoop_width (face : Face) (junk : Glyph) (newTex : Nat) (str : List Nat) :
    ∀ (fuel i : Nat) (c : GlyphCache) (verts : List FontVertex) (x y : Rat),
      (renderLoop face junk newTex str fuel i c verts x y).1
        = x + ((widthLoop face junk newTex str fuel i c 0).1 : Rat) := by
  intro fuel
  induction fuel with
  | zero =>
    intro i c verts x y
    simp [renderLoop, widthLoop]
  | succ fuel ih =>
    intro i c verts x y
    rw [renderLoop, widthLoop]
    by_cases hi : i < str.length
    · rw [if_pos hi, if_pos hi]
      cases hdec : UTF8Decode str i with
      | none => simp
      | some ch =>
        dsimp only
        have hacc := widthLoop_acc face junk newTex str fuel
          (i + UTF8EncodedSize ch) (getGlyph2 face junk newTex c ch 0x3F).2
          (0 + (getGlyph2 face junk newTex c ch 0x3F).1.ax)
        split
        · rw [ih, hacc]
          push_cast
          ring
        · rw [ih, hacc]
          push_cast
          ring
    · rw [if_neg hi, if_neg hi]
      simp

/-- C1: provided the atlas texture has been built (texture name non-zero),
rendering a UTF-8 string returns the start position `x` plus exactly the
width `getWidth` measures for the same string from the same state. -/
theorem c1_render_width_roundtrip (face : Face) (junk : Glyph) (newTex : Nat)
    (c : GlyphCache) (verts : List FontVertex) (str : List Nat) (x y : Rat)
    (h : c.texName ≠ 0) :
    (renderString face junk newTex c verts str x y).1
      = x + ((getWidthFun face junk newTex c str).1 : Rat) := by
  unfold renderString getWidthFun
  rw [if_neg h]
  exact renderLoop_width face junk newTex str str.length 0 c verts x y

/-- A face whose every glyph has advance 7 and a 1×1 bitmap. -/
def faceAll7 : Face := fun _ => some { ax := 7, ay := 0, bw := 1, bh := 1, bl := 0, bt := 0 }

/-- A cache with a built texture and no glyphs loaded. -/
def cacheTex1 : GlyphCache :=
  { glyphs := [], texName := 1, texWidth := 8, texHeight := 8,
    maxTextureSize := 1024, commonGlyphsCount := 0, inserted := 0 }

theorem c1_render_width_roundtrip_witness :
    (renderString faceAll7 badGlyph 1 cacheTex1 [] [0x41] 2 3).1
      = 2 + ((getWidthFun faceAll7 badGlyph 1 cacheTex1 [0x41]).1 : Rat) :=
  c1_render_width_roundtrip faceAll7 badGlyph 1 cacheTex1 [] [0x41] 2 3 (by decide)

theorem metricsOf_glyphOfMetrics (ch : Nat) (m : GlyphMetrics) (junk : Glyph) :
    metricsOf (glyphOfMetrics ch m junk) = m := rfl

theorem atlasStep_facts (face : Face) (tw th : Nat) (acc : Nat × Nat × Nat) (g : Glyph) :
    metricsOf (atlasStep face tw th acc g).2.1 = metricsOf g ∧
    (g.ch ≠ 0 → (face g.ch).isSome → (atlasStep face tw th acc g).2.1.ch = g.ch) ∧
    (g.ch = 0 → (atlasStep face tw th acc g).2.1.ch = g.ch) := by
  unfold atlasStep
  by_cases h0 : g.ch = 0
  · rw [if_pos h0]
    exact ⟨rfl, fun h => absurd h0 h, fun _ => rfl⟩
  · rw [if_neg h0]
    cases hf : face g.ch with
    | none =>
      refine ⟨rfl, ?_, fun h => absurd h h0⟩
      intro _ hs
      simp at hs
    | some m =>
      exact ⟨rfl, fun _ _ => rfl, fun h => absurd h h0⟩

theorem atlasLoop_append (face : Face) (tw th : Nat) :
    ∀ (gs1 gs2 : List Glyph) (acc : Nat × Nat × Nat),
      (atlasLoop face tw th acc (gs1 ++ gs2)).1
        = (atlasLoop face tw th acc gs1).1 ++
          (atlasLoop face tw th (atlasLoop face tw th acc gs1).2.2 gs2).1 := by
  intro gs1
  induction gs1 with
  | nil =>
    intro gs2 acc
    simp [atlasLoop]
  | cons g rest ih =>
    intro gs2 acc
    simp only [List.cons_append, atlasLoop]
    simp only [List.append_eq]
    rw [ih]

theorem atlasLoop_singleton (face : Face) (tw th : Nat) (acc : Nat × Nat × Nat)
    (g : Glyph) :
    (atlasLoop face tw th acc [g]).1 = [(atlasStep face tw th acc g).2.1] := by
  simp [atlasLoop]

theorem atlasLoop_forall2 (face : Face) (tw th : Nat) :
    ∀ (gs : List Glyph) (acc : Nat × Nat × Nat),
      List.Forall₂ (fun g g' => metricsOf g' = metricsOf g ∧
        (g.ch ≠ 0 → (face g.ch).isSome → g'.ch = g.ch) ∧
        (g.ch = 0 → g'.ch = g.ch))
        gs (atlasLoop face tw th acc gs).1 := by
  intro gs
  induction gs with
  | nil =>
    intro acc
    simp [atlasLoop]
  | cons g rest ih =>
    intro acc
    simp only [atlasLoop]
    exact List.Forall₂.cons (atlasStep_facts face tw th acc g) (ih _)

theorem forall2_mem_right {α β : Type} {R : α → β → Prop} :
    ∀ {l : List α} {l2 : List β}, List.Forall₂ R l l2 →
      ∀ b ∈ l2, ∃ a ∈ l, R a b := by
  intro l l2 h
  induction h with
  | nil =>
    intro b hb
    simp at hb
  | cons hR hF ih =>
    intro b hb
    rcases List.mem_cons.mp hb with rfl | hb2
    · exact ⟨_, List.mem_cons_self _ _, hR⟩
    · rcases ih b hb2 with ⟨a, ha, hr⟩
      exact ⟨a, List.mem_cons_of_mem _ ha, hr⟩

theorem gcc_snd_glyphs (c : GlyphCache) :
    (getCommonGlyphsCount c).2.glyphs = c.glyphs := by
  unfold getCommonGlyphsCount
  split <;> rfl

theorem gcc_fst_ne_zero (c : GlyphCache) : (getCommonGlyphsCount c).1 ≠ 0 := by
  unfold getCommonGlyphsCount
  split
  · dsimp only
    decide
  · next h => exact h

theorem gcc_snd_cgc (c : GlyphCache) :
    (getCommonGlyphsCount c).2.commonGlyphsCount = (getCommonGlyphsCount c).1 := by
  unfold getCommonGlyphsCount
  split <;> rfl

theorem gcc_of_ne_zero (s : GlyphCache) (h : s.commonGlyphsCount ≠ 0) :
    getCommonGlyphsCount s = (s.commonGlyphsCount, s) := by
  unfold getCommonGlyphsCount
  rw [if_neg h]

theorem buildAtlas_cgc (face : Face) (junk : Glyph) (newTex : Nat) (s : GlyphCache) :
    (buildAtlas face junk newTex s).2.1.commonGlyphsCount = s.commonGlyphsCount := by
  unfold buildAtlas initCommonGlyphs computeTextureSize
  split <;> split <;> rfl

theorem buildAtlas_glyphs_cases (face : Face) (junk : Glyph) (newTex : Nat)
    (s : GlyphCache) (hne : 0 < s.glyphs.length) :
    (buildAtlas face junk newTex s).2.1.glyphs = s.glyphs ∨
    (∃ tw th, (buildAtlas face junk newTex s).2.1.glyphs
        = (atlasLoop face tw th (0, 0, 0) s.glyphs).1) := by
  unfold buildAtlas initCommonGlyphs
  rw [if_pos hne]
  by_cases h0 : newTex = 0
  · left
    rw [if_pos h0]
    rfl
  · right
    rw [if_neg h0]
    exact ⟨(computeTextureSize s).texWidth, (computeTextureSize s).texHeight, rfl⟩

theorem getGlyph1_insert_metrics (face : Face) (junk : Glyph) (newTex : Nat)
    (c : GlyphCache) (ch : Nat) (m : GlyphMetrics)
    (hpos : toPos ch = -1)
    (hfind : (((getCommonGlyphsCount c).2.glyphs.drop (getCommonGlyphsCount c).1).find?
        (fun g => g.ch = ch)) = none)
    (hload : face ch = some m) :
    metricsOf (getGlyph1 face junk newTex c ch).1 = m ∧
    (getGlyph1 face junk newTex c ch).1.ch = ch := by
  have hli : loadGlyphInfo face junk ch = some (glyphOfMetrics ch m junk) := by
    unfold loadGlyphInfo
    rw [hload]
  have hg : ∀ s : GlyphCache,
      s.glyphs = (getCommonGlyphsCount c).2.glyphs ++ [glyphOfMetrics ch m junk] →
      metricsOf ((buildAtlas face junk newTex s).2.1.glyphs.getLastD junk) = m ∧
      ((buildAtlas face junk newTex s).2.1.glyphs.getLastD junk).ch = ch := by
    intro s hs
    rcases buildAtlas_glyphs_cases face junk newTex s (by rw [hs]; simp)
      with hcase | ⟨tw, th, hcase⟩
    · rw [hcase, hs, List.getLastD_concat]
      exact ⟨rfl, rfl⟩
    · rw [hcase, hs, atlasLoop_append, atlasLoop_singleton]
      rw [List.getLastD_concat]
      have hfacts := atlasStep_facts face tw th
        (atlasLoop face tw th (0, 0, 0) (getCommonGlyphsCount c).2.glyphs).2.2
        (glyphOfMetrics ch m junk)
      refine ⟨hfacts.1.trans (metricsOf_glyphOfMetrics ch m junk), ?_⟩
      by_cases h0 : ch = 0
      · have hz : (glyphOfMetrics ch m junk).ch = 0 := h0
        exact hfacts.2.2 hz
      · have hnz : (glyphOfMetrics ch m junk).ch ≠ 0 := h0
        have hiss : (face (glyphOfMetrics ch m junk).ch).isSome := by
          rw [show (glyphOfMetrics ch m junk).ch = ch from rfl, hload]
          rfl
        exact hfacts.2.1 hnz hiss
  simp only [getGlyph1, hpos]
  rw [if_neg (by norm_num)]
  rw [hfind, hli]
  dsimp only
  split
  · exact hg _ rfl
  · exact hg _ rfl

theorem getGlyph1_insert_state (face : Face) (junk : Glyph) (newTex : Nat)
    (c : GlyphCache) (ch : Nat) (m : GlyphMetrics)
    (hpos : toPos ch = -1)
    (hfind : (((getCommonGlyphsCount c).2.glyphs.drop (getCommonGlyphsCount c).1).find?
        (fun g => g.ch = ch)) = none)
    (hload : face ch = some m) :
    (getGlyph1 face junk newTex c ch).2.commonGlyphsCount = (getCommonGlyphsCount c).1 ∧
    ((getGlyph1 face junk newTex c ch).2.glyphs
        = (getCommonGlyphsCount c).2.glyphs ++ [glyphOfMetrics ch m junk] ∨
     ∃ tw th, (getGlyph1 face junk newTex c ch).2.glyphs
        = (atlasLoop face tw th (0, 0, 0)
            ((getCommonGlyphsCount c).2.glyphs ++ [glyphOfMetrics ch m junk])).1) := by
  have hli : loadGlyphInfo face junk ch = some (glyphOfMetrics ch m junk) := by
    unfold loadGlyphInfo
    rw [hload]
  have hg : ∀ s : GlyphCache,
      s.glyphs = (getCommonGlyphsCount c).2.glyphs ++ [glyphOfMetrics ch m junk] →
      s.commonGlyphsCount = (getCommonGlyphsCount c).2.commonGlyphsCount →
      (buildAtlas face junk newTex s).2.1.commonGlyphsCount = (getCommonGlyphsCount c).1 ∧
      ((buildAtlas face junk newTex s).2.1.glyphs
          = (getCommonGlyphsCount c).2.glyphs ++ [glyphOfMetrics ch m junk] ∨
       ∃ tw th, (buildAtlas face junk newTex s).2.1.glyphs
          = (atlasLoop face tw th (0, 0, 0)
              ((getCommonGlyphsCount c).2.glyphs ++ [glyphOfMetrics ch m junk])).1) := by
    intro s hs hcgc
    constructor
    · rw [buildAtlas_cgc, hcgc, gcc_snd_cgc]
    · rcases buildAtlas_glyphs_cases face junk newTex s (by rw [hs]; simp)
          with h | ⟨tw, th, h⟩
      · left
        rw [h, hs]
      · right
        exact ⟨tw, th, by rw [h, hs]⟩
  simp only [getGlyph1, hpos]
  rw [if_neg (by norm_num), hfind, hli]
  dsimp only
  split
  · exact hg _ rfl rfl
  · exact hg _ rfl rfl

theorem atlasLoop_drop_no_match (face : Face) (tw th : Nat) (acc : Nat × Nat × Nat)
    (old : List Glyph) (cc ch : Nat)
    (hwf : ∀ g ∈ old, g.ch ≠ 0 → (face g.ch).isSome)
    (hnm : ∀ g ∈ old.drop cc, ¬(g.ch = ch)) :
    ∀ gq ∈ ((atlasLoop face tw th acc old).1.drop cc), ¬(gq.ch = ch) := by
  intro gq hgq
  have hf2 := List.forall₂_drop cc (atlasLoop_forall2 face tw th old acc)
  rcases forall2_mem_right hf2 gq hgq with ⟨g, hgmem, _, hch1, hch2⟩
  have hgold : g ∈ old := List.mem_of_mem_drop hgmem
  by_cases h0 : g.ch = 0
  · rw [hch2 h0]
    exact hnm g hgmem
  · rw [hch1 h0 (hwf g hgold h0)]
    exact hnm g hgmem

theorem getGlyph1_eval_found (face : Face) (junk : Glyph) (newTex : Nat)
    (c : GlyphCache) (ch : Nat) (g : Glyph)
    (hpos : toPos ch = -1)
    (hfind : (((getCommonGlyphsCount c).2.glyphs.drop (getCommonGlyphsCount c).1).find?
        (fun g => g.ch = ch)) = some g) :
    getGlyph1 face junk newTex c ch = (g, (getCommonGlyphsCount c).2) := by
  simp only [getGlyph1, hpos]
  rw [if_neg (by norm_num), hfind]

theorem getGlyph1_eval_bad (face : Face) (junk : Glyph) (newTex : Nat)
    (c : GlyphCache) (ch : Nat)
    (hpos : toPos ch = -1)
    (hfind : (((getCommonGlyphsCount c).2.glyphs.drop (getCommonGlyphsCount c).1).find?
        (fun g => g.ch = ch)) = none)
    (hload : face ch = none) :
    getGlyph1 face junk newTex c ch = (badGlyph, (getCommonGlyphsCount c).2) := by
  have hli : loadGlyphInfo face junk ch = none := by
    unfold loadGlyphInfo
    rw [hload]
  simp only [getGlyph1, hpos]
  rw [if_neg (by norm_num), hfind, hli]

/-- C7: requesting the same code point twice returns records with
identical advance and bitmap metrics, for every cache whose stored glyphs
are consistent with the font face (every reachable cache is: stored
glyphs with a nonzero code point were rasterized successfully). -/
theorem c7_glyph_cache_stability (face : Face) (junk : Glyph) (newTex : Nat)
    (c : GlyphCache) (ch : Nat)
    (hwf : ∀ g ∈ c.glyphs, g.ch ≠ 0 → (face g.ch).isSome) :
    metricsOf (getGlyph1 face junk newTex c ch).1
      = metricsOf (getGlyph1 face junk newTex
          (getGlyph1 face junk newTex c ch).2 ch).1 := by
  by_cases hpos : toPos ch = -1
  · cases hfind : (((getCommonGlyphsCount c).2.glyphs.drop (getCommonGlyphsCount c).1).find?
        (fun g => g.ch = ch)) with
    | some g =>
      have hcgc1 : (getCommonGlyphsCount c).2.commonGlyphsCount ≠ 0 := by
        rw [gcc_snd_cgc]
        exact gcc_fst_ne_zero c
      have h1 := getGlyph1_eval_found face junk newTex c ch g hpos hfind
      have hfind2 : (((getCommonGlyphsCount ((getCommonGlyphsCount c).2)).2.glyphs.drop
          (getCommonGlyphsCount ((getCommonGlyphsCount c).2)).1).find?
            (fun g => g.ch = ch)) = some g := by
        rw [gcc_of_ne_zero _ hcgc1]
        dsimp only
        rw [gcc_snd_cgc]
        exact hfind
      have h2 := getGlyph1_eval_found face junk newTex (getCommonGlyphsCount c).2 ch g
        hpos hfind2
      rw [h1]
      dsimp only
      rw [h2]
    | none =>
      cases hload : face ch with
      | none =>
        have hcgc1 : (getCommonGlyphsCount c).2.commonGlyphsCount ≠ 0 := by
          rw [gcc_snd_cgc]
          exact gcc_fst_ne_zero c
        have h1 := getGlyph1_eval_bad face junk newTex c ch hpos hfind hload
        have hfind2 : (((getCommonGlyphsCount ((getCommonGlyphsCount c).2)).2.glyphs.drop
            (getCommonGlyphsCount ((getCommonGlyphsCount c).2)).1).find?
              (fun g => g.ch = ch)) = none := by
          rw [gcc_of_ne_zero _ hcgc1]
          dsimp only
          rw [gcc_snd_cgc]
          exact hfind
        have h2 := getGlyph1_eval_bad face junk newTex (getCommonGlyphsCount c).2 ch
          hpos hfind2 hload
        rw [h1]
        dsimp only
        rw [h2]
      | some m =>
        have hm1 := getGlyph1_insert_metrics face junk newTex c ch m hpos hfind hload
        have hst := getGlyph1_insert_state face junk newTex c ch m hpos hfind hload
        rw [hm1.1]
        have hne0 : (getGlyph1 face junk newTex c ch).2.commonGlyphsCount ≠ 0 := by
          rw [hst.1]
          exact gcc_fst_ne_zero c
        rcases hst.2 with hout | ⟨tw, th, hout⟩
        · by_cases hcc : (getCommonGlyphsCount c).1 ≤ (getCommonGlyphsCount c).2.glyphs.length
          · have hfind2 : (((getCommonGlyphsCount ((getGlyph1 face junk newTex c ch).2)).2.glyphs.drop
                (getCommonGlyphsCount ((getGlyph1 face junk newTex c ch).2)).1).find?
                  (fun g => g.ch = ch)) = some (glyphOfMetrics ch m junk) := by
              rw [gcc_of_ne_zero _ hne0]
              dsimp only
              rw [hst.1, hout, List.drop_append_eq_append_drop]
              rw [show (getCommonGlyphsCount c).1 - (getCommonGlyphsCount c).2.glyphs.length = 0
                    by omega]
              rw [List.drop_zero, List.find?_append, hfind]
              simp [List.find?, glyphOfMetrics]
            have h2 := getGlyph1_eval_found face junk newTex
              (getGlyph1 face junk newTex c ch).2 ch _ hpos hfind2
            rw [h2]
            dsimp only
            exact (metricsOf_glyphOfMetrics ch m junk).symm
          · have hfind2 : (((getCommonGlyphsCount ((getGlyph1 face junk newTex c ch).2)).2.glyphs.drop
                (getCommonGlyphsCount ((getGlyph1 face junk newTex c ch).2)).1).find?
                  (fun g => g.ch = ch)) = none := by
              rw [gcc_of_ne_zero _ hne0]
              dsimp only
              rw [hst.1, hout, List.drop_append_eq_append_drop]
              rw [List.drop_eq_nil_of_le (by omega)]
              rw [List.nil_append]
              rw [List.drop_eq_nil_of_le
                    (by simp only [List.length_cons, List.length_nil]; omega)]
              rfl
            have h2 := (getGlyph1_insert_metrics face junk newTex
              (getGlyph1 face junk newTex c ch).2 ch m hpos hfind2 hload).1
            rw [h2]
        · rw [atlasLoop_append, atlasLoop_singleton] at hout
          have hlenA : (atlasLoop face tw th (0, 0, 0) (getCommonGlyphsCount c).2.glyphs).1.length
              = (getCommonGlyphsCount c).2.glyphs.length :=
            (List.Forall₂.length_eq (atlasLoop_forall2 face tw th
              (getCommonGlyphsCount c).2.glyphs (0, 0, 0))).symm
          have hxfacts := atlasStep_facts face tw th
            (atlasLoop face tw th (0, 0, 0) (getCommonGlyphsCount c).2.glyphs).2.2
            (glyphOfMetrics ch m junk)
          have hxch : (atlasStep face tw th
              (atlasLoop face tw th (0, 0, 0) (getCommonGlyphsCount c).2.glyphs).2.2
              (glyphOfMetrics ch m junk)).2.1.ch = ch := by
            by_cases h0 : ch = 0
            · exact hxfacts.2.2 h0
            · refine hxfacts.2.1 h0 ?_
              rw [show (glyphOfMetrics ch m junk).ch = ch from rfl, hload]
              rfl
          by_cases hcc : (getCommonGlyphsCount c).1 ≤ (getCommonGlyphsCount c).2.glyphs.length
          · have hnm : ∀ gq ∈ ((atlasLoop face tw th (0, 0, 0)
                (getCommonGlyphsCount c).2.glyphs).1.drop (getCommonGlyphsCount c).1),
                ¬(gq.ch = ch) := by
              refine atlasLoop_drop_no_match face tw th (0, 0, 0)
                (getCommonGlyphsCount c).2.glyphs (getCommonGlyphsCount c).1 ch ?_ ?_
              · intro g hg
                rw [gcc_snd_glyphs] at hg
                exact hwf g hg
              · intro g hg
                have := List.find?_eq_none.mp hfind g hg
                simpa using this
            have hfind2 : (((getCommonGlyphsCount ((getGlyph1 face junk newTex c ch).2)).2.glyphs.drop
                (getCommonGlyphsCount ((getGlyph1 face junk newTex c ch).2)).1).find?
                  (fun g => g.ch = ch)) = some ((atlasStep face tw th
                    (atlasLoop face tw th (0, 0, 0) (getCommonGlyphsCount c).2.glyphs).2.2
                    (glyphOfMetrics ch m junk)).2.1) := by
              rw [gcc_of_ne_zero _ hne0]
              dsimp only
              rw [hst.1, hout, List.drop_append_eq_append_drop]
              rw [show (getCommonGlyphsCount c).1
                    - (atlasLoop face tw th (0, 0, 0) (getCommonGlyphsCount c).2.glyphs).1.length
                    = 0 by omega]
              rw [List.drop_zero, List.find?_append]
              rw [List.find?_eq_none.mpr (by intro gq hgq; simpa using hnm gq hgq)]
              rw [List.find?_cons_of_pos _ (by rw [hxch]; simp)]
              rfl
            have h2 := getGlyph1_eval_found face junk newTex
              (getGlyph1 face junk newTex c ch).2 ch _ hpos hfind2
            rw [h2]
            dsimp only
            rw [hxfacts.1, metricsOf_glyphOfMetrics]
          · have hfind2 : (((getCommonGlyphsCount ((getGlyph1 face junk newTex c ch).2)).2.glyphs.drop
                (getCommonGlyphsCount ((getGlyph1 face junk newTex c ch).2)).1).find?
                  (fun g => g.ch = ch)) = none := by
              rw [gcc_of_ne_zero _ hne0]
              dsimp only
              rw [hst.1, hout, List.drop_append_eq_append_drop]
              rw [List.drop_eq_nil_of_le (by omega)]
              rw [List.nil_append]
              rw [List.drop_eq_nil_of_le
                    (by simp only [List.length_cons, List.length_nil]; omega)]
              rfl
            have h2 := (getGlyph1_insert_metrics face junk newTex
              (getGlyph1 face junk newTex c ch).2 ch m hpos hfind2 hload).1
            rw [h2]
  · have h1 : getGlyph1 face junk newTex c ch
        = (c.glyphs.getD (toPos ch).toNat junk, c) := by
      simp only [getGlyph1]
      rw [if_pos hpos]
    rw [h1]
    dsimp only
    rw [h1]

theorem c7_glyph_cache_stability_witness :
    metricsOf (getGlyph1 faceAll7 badGlyph 1 cacheTex1 65).1
      = metricsOf (getGlyph1 faceAll7 badGlyph 1
          (getGlyph1 faceAll7 badGlyph 1 cacheTex1 65).2 65).1 :=
  c7_glyph_cache_stability faceAll7 badGlyph 1 cacheTex1 65 (by simp [cacheTex1])

/-- The code point stored at index `pos` of the pre-loaded common-block
region (Basic Latin first, then lower-case Greek). -/
def commonChar (pos : Nat) : Nat :=
  if pos < 95 then 0x20 + pos else 0x3B1 + (pos - 95)

/-- A pre-loaded slot is well formed: it either failed to load (code
point zero) with the face lacking that character, or it stores the
character with exactly the face's metrics. -/
def slotOK (face : Face) (c : GlyphCache) (pos : Nat) : Prop :=
  ((c.glyphs.getD pos badGlyph).ch = 0 ∧ face (commonChar pos) = none) ∨
  ((c.glyphs.getD pos badGlyph).ch = commonChar pos ∧
   face (commonChar pos) = some (metricsOf (c.glyphs.getD pos badGlyph)))

instance (face : Face) (c : GlyphCache) (pos : Nat) : Decidable (slotOK face c pos) := by
  unfold slotOK
  infer_instance

/-- The common-block region of the cache is fully loaded and well
formed. -/
def CommonSlotsOK (face : Face) (c : GlyphCache) : Prop :=
  126 ≤ c.glyphs.length ∧ ∀ pos : Nat, pos < 126 → slotOK face c pos

instance (face : Face) (c : GlyphCache) : Decidable (CommonSlotsOK face c) := by
  unfold CommonSlotsOK
  infer_instance

/-- Every stored glyph with a nonzero code point was rasterized from the
face with exactly its stored metrics. -/
def FaceConsistent (face : Face) (c : GlyphCache) : Prop :=
  ∀ g ∈ c.glyphs, g.ch ≠ 0 → face g.ch = some (metricsOf g)

instance (face : Face) (c : GlyphCache) : Decidable (FaceConsistent face c) := by
  unfold FaceConsistent
  infer_instance

theorem toPos_spec (ch : Nat) (h : toPos ch ≠ -1) :
    (toPos ch).toNat < 126 ∧ commonChar (toPos ch).toNat = ch := by
  unfold toPos at h ⊢
  by_cases h1 : ch > 0x3CF
  · rw [if_pos h1] at h
    exact absurd rfl h
  · rw [if_neg h1] at h ⊢
    simp only [toPosGo, unicodeBlocks] at h ⊢
    by_cases h2 : ch < 0x20
    · rw [if_pos h2] at h
      exact absurd rfl h
    · rw [if_neg h2] at h ⊢
      by_cases h3 : ch ≤ 0x7E
      · rw [if_pos h3] at h ⊢
        constructor
        · rw [Int.toNat_natCast]
          omega
        · rw [Int.toNat_natCast]
          unfold commonChar
          rw [if_pos (by omega)]
          omega
      · rw [if_neg h3] at h ⊢
        by_cases h4 : ch < 0x3B1
        · rw [if_pos h4] at h
          exact absurd rfl h
        · rw [if_neg h4] at h ⊢
          rw [if_pos (by omega)] at h ⊢
          constructor
          · rw [Int.toNat_natCast]
            omega
          · rw [Int.toNat_natCast]
            unfold commonChar
            rw [if_neg (by omega)]
            omega

/-- A correct lookup: when the face has the requested (nonzero) code
point, the single-argument `getGlyph` returns a record carrying exactly
the face's metrics for it; when it does not and the code point lies
outside the pre-loaded blocks, the bad-glyph sentinel is returned. -/
theorem getGlyph1_lookup_correct (face : Face) (junk : Glyph) (newTex : Nat)
    (c : GlyphCache) (fb : Nat)
    (hwfc : CommonSlotsOK face c) (hwfd : FaceConsistent face c)
    (hfb0 : fb ≠ 0) :
    (∀ m, face fb = some m → metricsOf (getGlyph1 face junk newTex c fb).1 = m) ∧
    (face fb = none → toPos fb = -1 →
      (getGlyph1 face junk newTex c fb).1 = badGlyph) := by
  constructor
  · intro m hm
    by_cases hpos : toPos fb = -1
    · cases hfind : (((getCommonGlyphsCount c).2.glyphs.drop (getCommonGlyphsCount c).1).find?
          (fun g => g.ch = fb)) with
      | some g =>
        rw [getGlyph1_eval_found face junk newTex c fb g hpos hfind]
        have hmem : g ∈ c.glyphs := by
          have := List.find?_some hfind
          have hmem2 := List.mem_of_find?_eq_some hfind
          rw [gcc_snd_glyphs] at hmem2
          exact List.mem_of_mem_drop hmem2
        have hgch : g.ch = fb := by
          have := List.find?_some hfind
          simpa using this
        have := hwfd g hmem (by rw [hgch]; exact hfb0)
        rw [hgch, hm] at this
        exact (Option.some_injective _ this).symm
      | none =>
        exact (getGlyph1_insert_metrics face junk newTex c fb m hpos hfind hm).1
    · have h1 : getGlyph1 face junk newTex c fb
          = (c.glyphs.getD (toPos fb).toNat junk, c) := by
        simp only [getGlyph1]
        rw [if_pos hpos]
      rw [h1]
      dsimp only
      rcases toPos_spec fb hpos with ⟨hlt, hcharEq⟩
      have hslot := hwfc.2 (toPos fb).toNat hlt
      have hbound : (toPos fb).toNat < c.glyphs.length := by
        have := hwfc.1
        omega
      rw [List.getD_eq_getElem c.glyphs junk hbound]
      unfold slotOK at hslot
      rw [List.getD_eq_getElem c.glyphs badGlyph hbound] at hslot
      rcases hslot with ⟨_, hnone⟩ | ⟨_, hsome⟩
      · rw [hcharEq, hm] at hnone
        simp at hnone
      · rw [hcharEq, hm] at hsome
        exact (Option.some_injective _ hsome.symm)
  · intro hnone hpos
    cases hfind : (((getCommonGlyphsCount c).2.glyphs.drop (getCommonGlyphsCount c).1).find?
        (fun g => g.ch = fb)) with
    | some g =>
      have hmem : g ∈ c.glyphs := by
        have hmem2 := List.mem_of_find?_eq_some hfind
        rw [gcc_snd_glyphs] at hmem2
        exact List.mem_of_mem_drop hmem2
      have hgch : g.ch = fb := by
        have := List.find?_some hfind
        simpa using this
      have := hwfd g hmem (by rw [hgch]; exact hfb0)
      rw [hgch, hnone] at this
      simp at this
    | none =>
      rw [getGlyph1_eval_bad face junk newTex c fb hpos hfind hnone]

/-- C3 (amended): for every nonzero code point whose rasterization
fails, `getGlyph(ch, fallback)` falls through to the fallback lookup: when
the (nonzero) fallback rasterizes, the returned record carries exactly
the fallback's face metrics; when even the fallback cannot be rasterized
and lies outside the pre-loaded blocks, the all-zero bad-glyph sentinel
is returned.  The failure never surfaces as an error. -/
theorem c3_rasterization_fallback (face : Face) (junk : Glyph) (newTex : Nat)
    (c : GlyphCache) (ch fb : Nat)
    (hwfc : CommonSlotsOK face c) (hwfd : FaceConsistent face c)
    (hch : face ch = none) (hch0 : ch ≠ 0) (hfb0 : fb ≠ 0) :
    (∀ m, face fb = some m → metricsOf (getGlyph2 face junk newTex c ch fb).1 = m) ∧
    (face fb = none → toPos fb = -1 →
      (getGlyph2 face junk newTex c ch fb).1 = badGlyph) := by
  have hprim : (getGlyph1 face junk newTex c ch).1.ch ≠ ch ∧
      ((getGlyph1 face junk newTex c ch).2 = c ∨
       (getGlyph1 face junk newTex c ch).2 = (getCommonGlyphsCount c).2) := by
    by_cases hpos : toPos ch = -1
    · cases hfind : (((getCommonGlyphsCount c).2.glyphs.drop (getCommonGlyphsCount c).1).find?
          (fun g => g.ch = ch)) with
      | some g =>
        have hmem : g ∈ c.glyphs := by
          have hmem2 := List.mem_of_find?_eq_some hfind
          rw [gcc_snd_glyphs] at hmem2
          exact List.mem_of_mem_drop hmem2
        have hgch : g.ch = ch := by
          have := List.find?_some hfind
          simpa using this
        have := hwfd g hmem (by rw [hgch]; exact hch0)
        rw [hgch, hch] at this
        simp at this
      | none =>
        rw [getGlyph1_eval_bad face junk newTex c ch hpos hfind hch]
        refine ⟨?_, Or.inr rfl⟩
        intro hcontra
        exact hch0 (hcontra.symm.trans rfl)
    · have h1 : getGlyph1 face junk newTex c ch
          = (c.glyphs.getD (toPos ch).toNat junk, c) := by
        simp only [getGlyph1]
        rw [if_pos hpos]
      rw [h1]
      refine ⟨?_, Or.inl rfl⟩
      dsimp only
      rcases toPos_spec ch hpos with ⟨hlt, hcharEq⟩
      have hbound : (toPos ch).toNat < c.glyphs.length := by
        have := hwfc.1
        omega
      have hslot := hwfc.2 (toPos ch).toNat hlt
      unfold slotOK at hslot
      rw [List.getD_eq_getElem c.glyphs badGlyph hbound] at hslot
      rw [List.getD_eq_getElem c.glyphs junk hbound]
      rcases hslot with ⟨hz, _⟩ | ⟨_, hsome⟩
      · rw [hz]
        exact fun hcontra => hch0 hcontra.symm
      · rw [hcharEq, hch] at hsome
        simp at hsome
  have hg2 : getGlyph2 face junk newTex c ch fb
      = getGlyph1 face junk newTex (getGlyph1 face junk newTex c ch).2 fb := by
    unfold getGlyph2
    rw [if_neg hprim.1]
  rw [hg2]
  rcases hprim.2 with hstate | hstate <;> rw [hstate]
  · exact getGlyph1_lookup_correct face junk newTex c fb hwfc hwfd hfb0
  · have hwfc2 : CommonSlotsOK face (getCommonGlyphsCount c).2 := by
      unfold CommonSlotsOK slotOK at hwfc ⊢
      rw [gcc_snd_glyphs]
      exact hwfc
    have hwfd2 : FaceConsistent face (getCommonGlyphsCount c).2 := by
      unfold FaceConsistent at hwfd ⊢
      rw [gcc_snd_glyphs]
      exact hwfd
    exact getGlyph1_lookup_correct face junk newTex _ fb hwfc2 hwfd2 hfb0

/-- The metrics every present glyph of `face7partial` reports. -/
def gm7 : GlyphMetrics := { ax := 7, ay := 0, bw := 1, bh := 1, bl := 0, bt := 0 }

/-- A face that cannot rasterize code points 0 and 1 and rasterizes
everything else with metrics `gm7`. -/
def face7partial : Face := fun ch => if ch < 2 then none else some gm7

/-- A cache as it stands right after the common blocks were loaded from
`face7partial`. -/
def cacheCommon7 : GlyphCache := initCommonGlyphs face7partial badGlyph cacheTex1

set_option maxRecDepth 100000 in
/-- C3 as stated is false at the code point 0: its rasterization fails
and the fallback `?` rasterizes fine, yet `getGlyph(0, 63)` returns the
bad-glyph sentinel rather than the fallback's record — the sentinel's
zero code-point field collides with the requested code point. -/
theorem c3_nullchar_counterexample :
    face7partial 0 = none ∧
    face7partial 63 = some gm7 ∧
    (getGlyph2 face7partial badGlyph 1 cacheCommon7 0 63).1 = badGlyph ∧
    metricsOf (getGlyph2 face7partial badGlyph 1 cacheCommon7 0 63).1 ≠ gm7 := by
  refine ⟨rfl, rfl, by decide, by decide⟩

set_option maxRecDepth 100000 in
theorem c3_rasterization_fallback_witness :
    metricsOf (getGlyph2 face7partial badGlyph 1 cacheCommon7 1 63).1 = gm7 :=
  (c3_rasterization_fallback face7partial badGlyph 1 cacheCommon7 1 63
    (by decide) (by decide) rfl (by decide) (by decide)).1 gm7 rfl

theorem renderLoop_length (face : Face) (junk : Glyph) (newTex : Nat) (str : List Nat) :
    ∀ (fuel i : Nat) (c : GlyphCache) (verts : List FontVertex) (x y : Rat),
      ∃ k, (renderLoop face junk newTex str fuel i c verts x y).2.2.length
        = verts.length + 4 * k := by
  intro fuel
  induction fuel with
  | zero =>
    intro i c verts x y
    exact ⟨0, rfl⟩
  | succ fuel ih =>
    intro i c verts x y
    rw [renderLoop]
    by_cases hi : i < str.length
    · rw [if_pos hi]
      cases hdec : UTF8Decode str i with
      | none => exact ⟨0, rfl⟩
      | some ch =>
        dsimp only
        split
        · exact ih _ _ verts _ _
        · rcases ih (i + UTF8EncodedSize ch) (getGlyph2 face junk newTex c ch 0x3F).2
              (verts ++ [_, _, _, _]) _ _ with ⟨k, hk⟩
          refine ⟨k + 1, ?_⟩
          rw [hk]
          simp only [List.length_append, List.length_cons, List.length_nil]
          omega
    · rw [if_neg hi]
      exact ⟨0, rfl⟩

theorem flushIndicesGo_lt (limit : Nat) :
    ∀ (n index : Nat), limit - index ≤ n → 4 ∣ limit → 4 ∣ index →
      ∀ i ∈ flushIndicesGo index limit, i < limit := by
  intro n
  induction n with
  | zero =>
    intro index hle hdl hdi i hi
    rw [flushIndicesGo, if_neg (by omega)] at hi
    simp at hi
  | succ n ih =>
    intro index hle hdl hdi i hi
    rw [flushIndicesGo] at hi
    by_cases hlt : index < limit
    · rw [if_pos hlt] at hi
      have hidx : index + 4 ≤ limit := by
        rcases hdl with ⟨a, ha⟩
        rcases hdi with ⟨b, hb⟩
        omega
      rcases List.mem_append.mp hi with h6 | hrest
      · simp only [List.mem_cons, List.mem_singleton] at h6
        rcases h6 with rfl | rfl | rfl | rfl | rfl | h6
        · omega
        · omega
        · omega
        · omega
        · omega
        · simp at h6
          omega
      · rcases hdi with ⟨b, hb⟩
        exact ih (index + 4) (by omega) hdl ⟨b + 1, by omega⟩ i hrest
    · rw [if_neg hlt] at hi
      simp at hi

/-- C10 (amended): the single-character render always appends exactly one
quad (four vertices); the string render appends four vertices per drawn
glyph — a multiple of four per call, not necessarily 0 or 4; `flush`
leaves the pending buffer empty whenever it held whole quads; and the
index list `flush` generates only references vertices that exist in a
whole-quad buffer. -/
theorem c10_quad_invariant :
    (∀ (face : Face) (junk : Glyph) (newTex : Nat) (c : GlyphCache)
       (verts : List FontVertex) (ch : Nat) (x y : Rat),
       (renderChar face junk newTex c verts ch x y).2.2.length = verts.length + 4) ∧
    (∀ (face : Face) (junk : Glyph) (newTex : Nat) (c : GlyphCache)
       (verts : List FontVertex) (str : List Nat) (x y : Rat),
       ∃ k, (renderString face junk newTex c verts str x y).2.2.length
         = verts.length + 4 * k) ∧
    (∀ s : TFState, 4 ∣ s.fontVertices.length → (flush s).1.fontVertices = []) ∧
    (∀ n : Nat, 4 ∣ n → ∀ i ∈ flushIndices n, i < n) := by
  refine ⟨?_, ?_, ?_, ?_⟩
  · intro face junk newTex c verts ch x y
    unfold renderChar
    simp only [List.length_append, List.length_cons, List.length_nil]
  · intro face junk newTex c verts str x y
    unfold renderString
    by_cases h0 : c.texName = 0
    · rw [if_pos h0]
      exact ⟨0, rfl⟩
    · rw [if_neg h0]
      exact renderLoop_length face junk newTex str str.length 0 c verts x y
  · intro s hdvd
    unfold flush
    by_cases hlen : s.fontVertices.length < 4
    · rw [if_pos hlen]
      rcases hdvd with ⟨k, hk⟩
      have : s.fontVertices.length = 0 := by omega
      exact List.length_eq_zero.mp this
    · rw [if_neg hlen]
  · intro n hdvd i hi
    unfold flushIndices at hi
    have h1 : i < n % 65536 := by
      refine flushIndicesGo_lt (n % 65536) (n % 65536) 0 (by omega) ?_ ⟨0, rfl⟩ i hi
      exact (Nat.dvd_mod_iff (by norm_num)).mpr hdvd
    exact lt_of_lt_of_le h1 (Nat.mod_le n 65536)

set_option maxRecDepth 100000 in
/-- C10 as stated ("every render call appends exactly 4 vertices (one
quad) or none") is false for the string renderer: rendering the
two-glyph string "AB" in one call appends eight vertices. -/
theorem c10_counterexample :
    (renderString face7partial badGlyph 1 cacheCommon7 [] [65, 66] 0 0).2.2.length = 8 ∧
    ¬((renderString face7partial badGlyph 1 cacheCommon7 [] [65, 66] 0 0).2.2.length = 0 ∨
      (renderString face7partial badGlyph 1 cacheCommon7 [] [65, 66] 0 0).2.2.length = 4) := by
  refine ⟨by decide, by decide⟩

theorem c10_quad_invariant_witness :
    (flush tfOneQuad).1.fontVertices = [] ∧ ∀ i ∈ flushIndices 8, i < 8 :=
  ⟨c10_quad_invariant.2.2.1 tfOneQuad (by decide),
   c10_quad_invariant.2.2.2 8 (by decide)⟩

theorem ctsStep_skip (maxTex : Nat) (acc : Nat × Nat × Nat × Nat) (g : Glyph)
    (h0 : g.ch = 0) : ctsStep maxTex acc g = acc := by
  unfold ctsStep
  rw [if_pos h0]

theorem ctsStep_reset (maxTex : Nat) (roww rowh w h : Nat) (g : Glyph)
    (h0 : ¬(g.ch = 0)) (hguard : roww + g.bw + 1 ≥ maxTex) :
    ctsStep maxTex (roww, rowh, w, h) g
      = (0 + g.bw + 1, max 0 g.bh, max w roww, h + rowh) := by
  unfold ctsStep
  rw [if_neg h0]
  dsimp only
  rw [if_pos hguard]

theorem ctsStep_go (maxTex : Nat) (roww rowh w h : Nat) (g : Glyph)
    (h0 : ¬(g.ch = 0)) (hguard : ¬(roww + g.bw + 1 ≥ maxTex)) :
    ctsStep maxTex (roww, rowh, w, h) g
      = (roww + g.bw + 1, max rowh g.bh, w, h) := by
  unfold ctsStep
  rw [if_neg h0]
  dsimp only
  rw [if_neg hguard]

theorem ctsStep_mono (maxTex : Nat) (acc : Nat × Nat × Nat × Nat) (g : Glyph) :
    acc.2.2.1 ≤ (ctsStep maxTex acc g).2.2.1 ∧
    (acc.1 ≤ (ctsStep maxTex acc g).1 ∨ acc.1 ≤ (ctsStep maxTex acc g).2.2.1) := by
  rcases acc with ⟨roww, rowh, w, h⟩
  by_cases h0 : g.ch = 0
  · rw [ctsStep_skip maxTex _ g h0]
    exact ⟨le_refl _, Or.inl (le_refl _)⟩
  · by_cases hguard : roww + g.bw + 1 ≥ maxTex
    · rw [ctsStep_reset maxTex roww rowh w h g h0 hguard]
      exact ⟨le_max_left _ _, Or.inr (le_max_right _ _)⟩
    · rw [ctsStep_go maxTex roww rowh w h g h0 hguard]
      exact ⟨le_refl _, Or.inl (by omega)⟩

theorem cts_fold_ge (maxTex : Nat) :
    ∀ (gs : List Glyph) (acc : Nat × Nat × Nat × Nat),
      acc.1 ≤ max (gs.foldl (ctsStep maxTex) acc).2.2.1
          (gs.foldl (ctsStep maxTex) acc).1 ∧
      acc.2.2.1 ≤ max (gs.foldl (ctsStep maxTex) acc).2.2.1
          (gs.foldl (ctsStep maxTex) acc).1 := by
  intro gs
  induction gs with
  | nil =>
    intro acc
    exact ⟨le_max_right _ _, le_max_left _ _⟩
  | cons g rest ih =>
    intro acc
    simp only [List.foldl_cons]
    have hstep := ctsStep_mono maxTex acc g
    have hrec := ih (ctsStep maxTex acc g)
    refine ⟨?_, le_trans hstep.1 hrec.2⟩
    rcases hstep.2 with h | h
    · exact le_trans h hrec.1
    · exact le_trans h hrec.2

theorem cts_glyph_width_le (maxTex : Nat) :
    ∀ (gs : List Glyph) (acc : Nat × Nat × Nat × Nat) (g : Glyph),
      g ∈ gs → g.ch ≠ 0 →
      g.bw + 1 ≤ max (gs.foldl (ctsStep maxTex) acc).2.2.1
        (gs.foldl (ctsStep maxTex) acc).1 := by
  intro gs
  induction gs with
  | nil =>
    intro acc g hg
    simp at hg
  | cons g0 rest ih =>
    intro acc g hg hch
    simp only [List.foldl_cons]
    rcases List.mem_cons.mp hg with rfl | hg2
    · have hrec := cts_fold_ge maxTex rest (ctsStep maxTex acc g)
      have hstep : g.bw + 1 ≤ (ctsStep maxTex acc g).1 := by
        rcases acc with ⟨roww, rowh, w, h⟩
        by_cases hguard : roww + g.bw + 1 ≥ maxTex
        · rw [ctsStep_reset maxTex roww rowh w h g hch hguard]
          dsimp only
          omega
        · rw [ctsStep_go maxTex roww rowh w h g hch hguard]
          dsimp only
          omega
      exact le_trans hstep hrec.1
    · exact ih (ctsStep maxTex acc g0) g hg2 hch

theorem cts_width_le_max (maxTex : Nat) :
    ∀ (gs : List Glyph) (acc : Nat × Nat × Nat × Nat),
      acc.1 ≤ maxTex → acc.2.2.1 ≤ maxTex →
      (∀ g ∈ gs, g.ch ≠ 0 → g.bw + 2 ≤ maxTex) →
      max (gs.foldl (ctsStep maxTex) acc).2.2.1
        (gs.foldl (ctsStep maxTex) acc).1 ≤ maxTex := by
  intro gs
  induction gs with
  | nil =>
    intro acc h1 h2 _
    exact max_le h2 h1
  | cons g rest ih =>
    intro acc h1 h2 hbw
    simp only [List.foldl_cons]
    have hg := fun g hg hch => hbw g (List.mem_cons_of_mem _ hg) hch
    rcases acc with ⟨roww, rowh, w, h⟩
    by_cases h0 : g.ch = 0
    · rw [ctsStep_skip maxTex _ g h0]
      exact ih _ h1 h2 hg
    · have hbwg := hbw g (List.mem_cons_self _ _) h0
      by_cases hguard : roww + g.bw + 1 ≥ maxTex
      · rw [ctsStep_reset maxTex roww rowh w h g h0 hguard]
        refine ih _ ?_ ?_ hg
        · dsimp only
          omega
        · dsimp only
          exact max_le h2 h1
      · rw [ctsStep_go maxTex roww rowh w h g h0 hguard]
        refine ih _ ?_ ?_ hg
        · dsimp only
          omega
        · exact h2

/-- One step of the shelf partition the spec describes ("glyphs placed
left-to-right, a new row started when the running row width would exceed
the maximum texture dimension"); written out from the spec's words, to be
compared with `computeTextureSize`. -/
def specShelfStep (maxTex : Nat) (acc : List Glyph × Nat × List (List Glyph))
    (g : Glyph) : List Glyph × Nat × List (List Glyph) :=
  if g.ch = 0 then acc
  else if acc.2.1 + g.bw + 1 ≥ maxTex then ([g], g.bw + 1, acc.2.2 ++ [acc.1])
  else (acc.1 ++ [g], acc.2.1 + g.bw + 1, acc.2.2)

/-- The shelf rows of a glyph sequence, per the spec's packing
description. -/
def specShelfRows (maxTex : Nat) (gs : List Glyph) : List (List Glyph) :=
  let r := gs.foldl (specShelfStep maxTex) ([], 0, [])
  r.2.2 ++ [r.1]

/-- The height of one shelf row: the maximum bitmap height in it. -/
def rowHeight (row : List Glyph) : Nat :=
  row.foldl (fun a g => max a g.bh) 0

theorem rowHeight_concat (row : List Glyph) (g : Glyph) :
    rowHeight (row ++ [g]) = max (rowHeight row) g.bh := by
  unfold rowHeight
  rw [List.foldl_append]
  rfl

theorem cts_height_rows (maxTex : Nat) :
    ∀ (gs : List Glyph) (a : Nat × Nat × Nat × Nat) (cur : List Glyph)
      (rows : List (List Glyph)),
      a.2.1 = rowHeight cur →
      a.2.2.2 = (rows.map rowHeight).sum →
      (gs.foldl (ctsStep maxTex) a).2.2.2 + (gs.foldl (ctsStep maxTex) a).2.1
        = (((gs.foldl (specShelfStep maxTex) (cur, a.1, rows)).2.2
            ++ [(gs.foldl (specShelfStep maxTex) (cur, a.1, rows)).1]).map
              rowHeight).sum := by
  intro gs
  induction gs with
  | nil =>
    intro a cur rows hrowh hsum
    simp only [List.foldl_nil, List.map_append, List.map_cons, List.map_nil,
      List.sum_append, List.sum_cons, List.sum_nil]
    omega
  | cons g rest ih =>
    intro a cur rows hrowh hsum
    rcases a with ⟨roww, rowh, w, h⟩
    simp only [List.foldl_cons]
    by_cases h0 : g.ch = 0
    · rw [ctsStep_skip maxTex _ g h0]
      rw [show specShelfStep maxTex (cur, roww, rows) g = (cur, roww, rows) by
          unfold specShelfStep; rw [if_pos h0]]
      exact ih (roww, rowh, w, h) cur rows hrowh hsum
    · by_cases hguard : roww + g.bw + 1 ≥ maxTex
      · rw [ctsStep_reset maxTex roww rowh w h g h0 hguard]
        rw [show specShelfStep maxTex (cur, roww, rows) g
            = ([g], g.bw + 1, rows ++ [cur]) by
            unfold specShelfStep; rw [if_neg h0]; dsimp only; rw [if_pos hguard]]
        rw [show ((0 + g.bw + 1, max 0 g.bh, max w roww, h + rowh) :
              Nat × Nat × Nat × Nat) = (g.bw + 1, max 0 g.bh, max w roww, h + rowh) by
            rw [Nat.zero_add]]
        refine ih (g.bw + 1, max 0 g.bh, max w roww, h + rowh) [g] (rows ++ [cur])
          rfl ?_
        dsimp only
        rw [List.map_append, List.sum_append]
        simp only [List.map_cons, List.map_nil, List.sum_cons, List.sum_nil]
        dsimp only at hrowh hsum
        omega
      · rw [ctsStep_go maxTex roww rowh w h g h0 hguard]
        rw [show specShelfStep maxTex (cur, roww, rows) g
            = (cur ++ [g], roww + g.bw + 1, rows) by
            unfold specShelfStep; rw [if_neg h0]; dsimp only; rw [if_neg hguard]]
        refine ih (roww + g.bw + 1, max rowh g.bh, w, h) (cur ++ [g]) rows ?_ hsum
        dsimp only
        dsimp only at hrowh
        rw [rowHeight_concat, hrowh]

theorem atlasLoop_placements (face : Face) (texW texH : Nat) :
    ∀ (gs : List Glyph) (acc : Nat × Nat × Nat),
      (∀ g ∈ gs, g.ch ≠ 0 → ∃ m, face g.ch = some m ∧ m.bw + 1 ≤ texW) →
      ∀ p ∈ (atlasLoop face texW texH acc gs).2.1, p.1 + p.2.2 ≤ texW := by
  intro gs
  induction gs with
  | nil =>
    intro acc _ p hp
    simp [atlasLoop] at hp
  | cons g rest ih =>
    intro acc hbw p hp
    simp only [atlasLoop] at hp
    rcases List.mem_append.mp hp with hstep | hrest
    · by_cases h0 : g.ch = 0
      · rw [show atlasStep face texW texH acc g = (acc, g, none) by
            unfold atlasStep; rw [if_pos h0]] at hstep
        simp at hstep
      · rcases hbw g (List.mem_cons_self _ _) h0 with ⟨m, hm, hmbw⟩
        rw [show atlasStep face texW texH acc g
            = (((if acc.1 + m.bw > texW then (0, acc.2.1 + acc.2.2, 0) else acc).1
                  + m.bw + 1,
                (if acc.1 + m.bw > texW then (0, acc.2.1 + acc.2.2, 0) else acc).2.1,
                max (if acc.1 + m.bw > texW then (0, acc.2.1 + acc.2.2, 0) else acc).2.2
                  m.bh),
               { g with
                  tx := ((if acc.1 + m.bw > texW then (0, acc.2.1 + acc.2.2, 0)
                      else acc).1 : Rat) / (texW : Rat),
                  ty := ((if acc.1 + m.bw > texW then (0, acc.2.1 + acc.2.2, 0)
                      else acc).2.1 : Rat) / (texH : Rat) },
               some ((if acc.1 + m.bw > texW then (0, acc.2.1 + acc.2.2, 0) else acc).1,
                 (if acc.1 + m.bw > texW then (0, acc.2.1 + acc.2.2, 0) else acc).2.1,
                 m.bw)) by
            unfold atlasStep; rw [if_neg h0, hm]] at hstep
        simp only [Option.toList, List.mem_singleton] at hstep
        subst hstep
        by_cases hover : acc.1 + m.bw > texW
        · rw [if_pos hover]
          dsimp only
          omega
        · rw [if_neg hover]
          dsimp only
          omega
    · exact ih _ (fun g2 hg2 => hbw g2 (List.mem_cons_of_mem _ hg2)) p hrest

theorem commonGlyphList_consistent (face : Face) (junk : Glyph) :
    ∀ g ∈ commonGlyphList face junk, g.ch ≠ 0 → face g.ch = some (metricsOf g) := by
  intro g hg hch
  unfold commonGlyphList at hg
  rw [List.mem_flatMap] at hg
  rcases hg with ⟨r, _, hgm⟩
  rw [List.mem_map] at hgm
  rcases hgm with ⟨k, _, hEq⟩
  cases hload : loadGlyphInfo face junk (r.1 + k) with
  | none =>
    rw [hload] at hEq
    rw [← hEq] at hch
    simp at hch
  | some cg =>
    rw [hload] at hEq
    unfold loadGlyphInfo at hload
    cases hface : face (r.1 + k) with
    | none =>
      rw [hface] at hload
      simp at hload
    | some m =>
      rw [hface] at hload
      have hcg : cg = glyphOfMetrics (r.1 + k) m junk := (Option.some.inj hload).symm
      dsimp only at hEq
      subst hEq
      rw [hcg, metricsOf_glyphOfMetrics]
      exact hface

/-- C5 (amended): when every good glyph's padded width fits strictly
inside the maximum texture dimension, the computed texture width is at
most that maximum; the computed texture height is always the sum of the
shelf-row heights; and every glyph placement of `buildAtlas` keeps the
glyph inside the computed texture width (for any face-consistent cache,
with no size hypothesis). -/
theorem c5_shelf_packing :
    (∀ c : GlyphCache,
       (∀ g ∈ c.glyphs, g.ch ≠ 0 → g.bw + 2 ≤ c.maxTextureSize) →
       (computeTextureSize c).texWidth ≤ c.maxTextureSize) ∧
    (∀ c : GlyphCache,
       (computeTextureSize c).texHeight
         = ((specShelfRows c.maxTextureSize c.glyphs).map rowHeight).sum) ∧
    (∀ (face : Face) (junk : Glyph) (newTex : Nat) (c : GlyphCache),
       FaceConsistent face c →
       ∀ p ∈ (buildAtlas face junk newTex c).2.2,
         p.1 + p.2.2 ≤ (buildAtlas face junk newTex c).2.1.texWidth) := by
  refine ⟨?_, ?_, ?_⟩
  · intro c hbw
    exact cts_width_le_max c.maxTextureSize c.glyphs (0, 0, 0, 0)
      (Nat.zero_le _) (Nat.zero_le _) hbw
  · intro c
    exact cts_height_rows c.maxTextureSize c.glyphs (0, 0, 0, 0) [] [] rfl rfl
  · intro face junk newTex c hcons p hp
    have hcons1 : ∀ g ∈ (initCommonGlyphs face junk c).glyphs, g.ch ≠ 0 →
        face g.ch = some (metricsOf g) := by
      unfold initCommonGlyphs
      split
      · exact hcons
      · exact commonGlyphList_consistent face junk
    unfold buildAtlas at hp ⊢
    by_cases h0 : newTex = 0
    · rw [if_pos h0] at hp
      simp at hp
    · rw [if_neg h0] at hp ⊢
      dsimp only at hp ⊢
      refine atlasLoop_placements face _ _ _ (0, 0, 0) ?_ p hp
      intro g hg hch
      refine ⟨metricsOf g, hcons1 g hg hch, ?_⟩
      exact cts_glyph_width_le (initCommonGlyphs face junk c).maxTextureSize
        (initCommonGlyphs face junk c).glyphs (0, 0, 0, 0) g hg hch

/-- A cache holding a single 10-pixel-wide glyph while the device maximum
texture size is only 4. -/
def wideGlyphCache : GlyphCache :=
  { glyphs := [{ ch := 65, ax := 0, ay := 0, bw := 10, bh := 1, bl := 0, bt := 0,
                 tx := 0, ty := 0 }],
    texName := 1, texWidth := 0, texHeight := 0, maxTextureSize := 4,
    commonGlyphsCount := 0, inserted := 0 }

/-- C5 as stated is false: a glyph wider than the maximum texture
dimension makes `computeTextureSize` return a texture width exceeding
that maximum (the packer has no guard for oversized single glyphs). -/
theorem c5_width_counterexample :
    (computeTextureSize wideGlyphCache).texWidth = 11 ∧
    ¬((computeTextureSize wideGlyphCache).texWidth
        ≤ wideGlyphCache.maxTextureSize) := by
  refine ⟨by decide, by decide⟩

/-- A cache holding one small glyph under a generous maximum. -/
def smallGlyphCache : GlyphCache :=
  { glyphs := [{ ch := 65, ax := 0, ay := 0, bw := 1, bh := 1, bl := 0, bt := 0,
                 tx := 0, ty := 0 }],
    texName := 1, texWidth := 0, texHeight := 0, maxTextureSize := 4,
    commonGlyphsCount := 0, inserted := 0 }

set_option maxRecDepth 100000 in
theorem c5_shelf_packing_witness :
    (computeTextureSize smallGlyphCache).texWidth ≤ smallGlyphCache.maxTextureSize ∧
    ∀ p ∈ (buildAtlas face7partial badGlyph 1 cacheCommon7).2.2,
      p.1 + p.2.2 ≤ (buildAtlas face7partial badGlyph 1 cacheCommon7).2.1.texWidth :=
  ⟨c5_shelf_packing.1 smallGlyphCache (by decide),
   c5_shelf_packing.2.2 face7partial badGlyph 1 cacheCommon7 (by decide)⟩

theorem bind_pres_metrics (s : TFState) :
    (bind s).1.maxAscent = s.maxAscent ∧ (bind s).1.maxDescent = s.maxDescent := by
  unfold bind
  repeat' split
  all_goals exact ⟨rfl, rfl⟩

theorem flush_pres_metrics (s : TFState) :
    (flush s).1.maxAscent = s.maxAscent ∧ (flush s).1.maxDescent = s.maxDescent := by
  unfold flush
  split
  all_goals exact ⟨rfl, rfl⟩

theorem setMVPMatrix_pres_metrics (s : TFState) (m : Int) :
    (setMVPMatrix s m).1.maxAscent = s.maxAscent ∧
    (setMVPMatrix s m).1.maxDescent = s.maxDescent := by
  unfold setMVPMatrix
  dsimp only
  split
  · rcases hf : flush { s with mvp := m } with ⟨s2, evs⟩
    dsimp only
    have h := flush_pres_metrics { s with mvp := m }
    rw [hf] at h
    exact h
  · exact ⟨rfl, rfl⟩

theorem overlayPrint_char_parts (face : Face) (junk : Glyph) (newTex : Nat)
    (st : OverlayState) (g : TFState) (c : Nat)
    (hfont : st.font = some g) (hut : st.useTexture = true)
    (hfc : st.fontChanged = false) (hc : ¬(c = 10)) :
    (overlayPrint face junk newTex st c).2
      = [OvEvent.renderGlyph c (st.global.1 + st.xoffset)
          (st.global.2 + st.yoffset)] ∧
    (overlayPrint face junk newTex st c).1.global = st.global ∧
    (overlayPrint face junk newTex st c).1.posStack = st.posStack ∧
    (overlayPrint face junk newTex st c).1.textBlock = st.textBlock ∧
    (overlayPrint face junk newTex st c).1.useTexture = st.useTexture ∧
    (overlayPrint face junk newTex st c).1.fontChanged = st.fontChanged ∧
    (overlayPrint face junk newTex st c).1.yoffset = st.yoffset ∧
    (∃ g2 : TFState, (overlayPrint face junk newTex st c).1.font = some g2 ∧
       g2.maxAscent = g.maxAscent ∧ g2.maxDescent = g.maxDescent) := by
  unfold overlayPrint
  rw [hfont]
  dsimp only
  have hcond : ¬((!st.useTexture || st.fontChanged) = true) := by
    rw [hut, hfc]
    simp
  rw [if_neg hcond, if_neg hc]
  refine ⟨rfl, rfl, rfl, rfl, rfl, rfl, rfl, ?_⟩
  exact ⟨_, rfl, rfl, rfl⟩

theorem overlayPrint_newline_parts (face : Face) (junk : Glyph) (newTex : Nat)
    (st : OverlayState) (g : TFState) (p : Rat × Rat)
    (hfont : st.font = some g) (hut : st.useTexture = true)
    (hfc : st.fontChanged = false) (htb : st.textBlock > 0)
    (hstack : st.posStack = [p]) :
    (overlayPrint face junk newTex st 10).2 = [] ∧
    (overlayPrint face junk newTex st 10).1.global
      = (p.1, p.2 - (1 + (getHeight g : Rat))) ∧
    (overlayPrint face junk newTex st 10).1.xoffset = 0 ∧
    (overlayPrint face junk newTex st 10).1.yoffset = 0 ∧
    (overlayPrint face junk newTex st 10).1.posStack
      = [(p.1, p.2 - (1 + (getHeight g : Rat)))] ∧
    (overlayPrint face junk newTex st 10).1.textBlock = st.textBlock ∧
    (overlayPrint face junk newTex st 10).1.useTexture = st.useTexture ∧
    (overlayPrint face junk newTex st 10).1.fontChanged = st.fontChanged ∧
    (overlayPrint face junk newTex st 10).1.font = some g := by
  unfold overlayPrint
  rw [hfont]
  dsimp only
  have hcond : ¬((!st.useTexture || st.fontChanged) = true) := by
    rw [hut, hfc]
    simp
  rw [if_neg hcond]
  simp only [eq_self_iff_true, if_true]
  rw [if_pos htb]
  unfold restorePos savePos
  rw [hstack]
  dsimp only [List.getLast?, List.dropLast]
  norm_num

/-- C6: with a font bound and inside a text block opened at cursor
(10, 10), printing "A", a newline, then "B" produces exactly two
glyph-render calls — the first at (10, 10) and the second at
(10, 10 - (1 + line height)) where the line height is
maxAscent + maxDescent — and the newline resets the accumulated
xoffset to 0 so the second glyph renders at the block's origin column. -/
theorem c6_textblock_newline (face : Face) (junk : Glyph) (newTex : Nat)
    (f : TFState) (m : Int) :
    renderEvents (overlayPrintAll face junk newTex
        (beginText (overlayStart f m)).1 [65, 10, 66]).2
      = [OvEvent.renderGlyph 65 10 10,
         OvEvent.renderGlyph 66 10
           (10 - (1 + ((f.maxAscent + f.maxDescent : Int) : Rat)))] ∧
    (overlayPrintAll face junk newTex
        (beginText (overlayStart f m)).1 [65, 10]).1.xoffset = 0 := by
  have hba := bind_pres_metrics f
  have hsa := setMVPMatrix_pres_metrics (bind f).1 m
  set s1 : OverlayState := (beginText (overlayStart f m)).1 with hs1
  set f2 : TFState := (setMVPMatrix (bind f).1 m).1 with hf2
  have hfont1 : s1.font = some f2 := rfl
  have hut1 : s1.useTexture = true := rfl
  have hfc1 : s1.fontChanged = false := rfl
  obtain ⟨hAev, hAgl, hAps, hAtb, hAut, hAfc, hAyo, g2, hg2font, hg2a, hg2d⟩ :=
    overlayPrint_char_parts face junk newTex s1 f2 65 hfont1 hut1 hfc1
      (by decide)
  set sA : OverlayState := (overlayPrint face junk newTex s1 65).1 with hsA
  obtain ⟨hBev, hBgl, hBxo, hByo, hBps, hBtb, hBut, hBfc, hBfont⟩ :=
    overlayPrint_newline_parts face junk newTex sA g2 ((10 : Rat), (10 : Rat))
      hg2font (by rw [hAut]; exact hut1) (by rw [hAfc]; exact hfc1)
      (by rw [hAtb]; exact Nat.one_pos)
      (by rw [hAps]; rfl)
  set sB : OverlayState := (overlayPrint face junk newTex sA 10).1 with hsB
  obtain ⟨hCev, hCgl, hCps, hCtb, hCut, hCfc, hCyo, g3, hg3font, hg3a, hg3d⟩ :=
    overlayPrint_char_parts face junk newTex sB g2 66 hBfont
      (by rw [hBut, hAut]; exact hut1) (by rw [hBfc, hAfc]; exact hfc1)
      (by decide)
  have hx1 : s1.global.1 + s1.xoffset = (10 : Rat) := by
    show (10 : Rat) + 0 = 10
    norm_num
  have hy1 : s1.global.2 + s1.yoffset = (10 : Rat) := by
    show (10 : Rat) + 0 = 10
    norm_num
  have hh : (getHeight g2 : Rat)
      = ((f.maxAscent + f.maxDescent : Int) : Rat) := by
    unfold getHeight
    rw [hg2a, hg2d, hsa.1, hsa.2, hba.1, hba.2]
  have hx2 : sB.global.1 + sB.xoffset = (10 : Rat) := by
    rw [hBgl, hBxo]
    norm_num
  have hy2 : sB.global.2 + sB.yoffset
      = 10 - (1 + ((f.maxAscent + f.maxDescent : Int) : Rat)) := by
    rw [hBgl, hByo, hh]
    norm_num
  constructor
  · simp only [overlayPrintAll]
    rw [hAev, hBev, hCev]
    simp only [renderEvents, List.filter, List.append_nil, List.nil_append,
      List.cons_append]
    rw [hx1, hy1, hx2, hy2]
  · simp only [overlayPrintAll]
    exact hBxo

end Celestia


